import Mathlib

set_option maxHeartbeats 1000000

namespace CodeReviewer

/-! # JavaScript string primitives

Executable models of the JavaScript string operations used by the
review pipeline in `src/server/ai.ts` (`String.prototype.trim`,
`includes`, `replace` with a string pattern, `split('\n')`,
`toLowerCase`). -/

/-- Characters removed by JavaScript `String.prototype.trim` and matched by
the regex class `\s`. -/
def jsIsWhitespace (c : Char) : Bool :=
  c ∈ [' ', '\t', '\n', '\r', '\x0B', '\x0C', '\u00A0', '\u1680',
       '\u2028', '\u2029', '\u202F', '\u205F', '\u3000', '\uFEFF']
  || (0x2000 ≤ c.toNat && c.toNat ≤ 0x200A)

/-- JavaScript `s.trim()`: strip leading and trailing whitespace. -/
def jsTrim (s : String) : String :=
  String.mk (((s.toList.dropWhile jsIsWhitespace).reverse.dropWhile jsIsWhitespace).reverse)

/-- JavaScript `s.toLowerCase()` (ASCII characters; the languages and
keywords compared in the source are ASCII). -/
def jsToLowerCase (s : String) : String :=
  String.mk (s.toList.map Char.toLower)

/-- Helper for `jsIncludes`: does `pat` occur in the character list? -/
def jsIncludesAux (pat : List Char) : List Char → Bool
  | [] => pat.isPrefixOf ([] : List Char)
  | c :: tl => pat.isPrefixOf (c :: tl) || jsIncludesAux pat tl

/-- JavaScript `s.includes(pat)`. -/
def jsIncludes (s pat : String) : Bool :=
  jsIncludesAux pat.toList s.toList

/-- Helper for `jsReplaceFirst`: replace the first occurrence of `pat`. -/
def jsReplaceFirstAux (pat rep : List Char) : List Char → List Char
  | [] => if pat.isPrefixOf ([] : List Char) then rep else []
  | c :: tl =>
    if pat.isPrefixOf (c :: tl) then rep ++ (c :: tl).drop pat.length
    else c :: jsReplaceFirstAux pat rep tl

/-- JavaScript `s.replace(pat, rep)` with a string pattern: only the first
occurrence is replaced. -/
def jsReplaceFirst (s pat rep : String) : String :=
  String.mk (jsReplaceFirstAux pat.toList rep.toList s.toList)

/-- Helper for `jsSplitNewline` on character lists. -/
def jsSplitNewlineAux : List Char → List (List Char)
  | [] => [[]]
  | c :: tl =>
    let r := jsSplitNewlineAux tl
    if c = '\n' then [] :: r
    else
      match r with
      | h :: t => (c :: h) :: t
      | [] => [[c]]

/-- JavaScript `s.split('\n')` (keeps empty segments; `"" ↦ [""]`). -/
def jsSplitNewline (s : String) : List String :=
  (jsSplitNewlineAux s.toList).map String.mk

/-! ## A tiny matcher for the linear regular expressions of the analyzers

The three regexes appearing in `src/server/ai.ts`
(`/def\s+\w+\([^)]*=\s*\[\s*\][^)]*\)/`, `/\w+\s*\*\s*\w+/`, `/\s+$/`)
and `/['"].*['"] \+ /` are concatenations of literals and quantified
character classes, so they are translated into lists of `Piece`s and
matched with explicit backtracking. -/

/-- One piece of a linear regular expression: a literal, a single
character of a class, zero-or-more characters of a class, or the
end-of-input anchor `$`. -/
inductive Piece where
  | lit (s : String)
  | one (p : Char → Bool)
  | many (p : Char → Bool)
  | eos


/-- Does the piece sequence match a prefix of the character list?
(Backtracking over `many`.) -/
def matchSeq : List Piece → List Char → Bool
  | [], _ => true
  | Piece.eos :: ps, l => l.isEmpty && matchSeq ps l
  | Piece.lit s :: ps, l => s.toList.isPrefixOf l && matchSeq ps (l.drop s.toList.length)
  | Piece.one p :: ps, l =>
    match l with
    | [] => false
    | c :: tl => p c && matchSeq ps tl
  | Piece.many p :: ps, l =>
    matchSeq ps l ||
      (match l with
       | [] => false
       | c :: tl => p c && matchSeq (Piece.many p :: ps) tl)
  termination_by ps l => (l.length, ps.length)
  decreasing_by
    all_goals simp_wf
    all_goals first
      | exact Prod.Lex.right _ (by omega)
      | exact Prod.Lex.left _ _ (by omega)
      | (rcases Nat.lt_or_eq_of_le (Nat.sub_le _ _) with h | h
         · exact Prod.Lex.left _ _ h
         · rw [h]; exact Prod.Lex.right _ (by omega))

/-- JavaScript `s.match(re)` used in boolean position: search for a match
at any position in the string. -/
def jsSearchAux (ps : List Piece) : List Char → Bool
  | [] => matchSeq ps []
  | c :: tl => matchSeq ps (c :: tl) || jsSearchAux ps tl

/-- Search a string for the piece sequence. -/
def jsSearch (s : String) (ps : List Piece) : Bool :=
  jsSearchAux ps s.toList

/-- Regex `\w`: word character. -/
def isWordChar (c : Char) : Bool :=
  ('a' ≤ c && c ≤ 'z') || ('A' ≤ c && c ≤ 'Z') || ('0' ≤ c && c ≤ '9') || c = '_'

/-- The regex `/def\s+\w+\([^)]*=\s*\[\s*\][^)]*\)/` from `analyzePython`. -/
def pythonMutableDefaultRe : List Piece :=
  [Piece.lit "def", Piece.one jsIsWhitespace, Piece.many jsIsWhitespace,
   Piece.one isWordChar, Piece.many isWordChar, Piece.lit "(",
   Piece.many (fun c => c ≠ ')'), Piece.lit "=",
   Piece.many jsIsWhitespace, Piece.lit "[", Piece.many jsIsWhitespace, Piece.lit "]",
   Piece.many (fun c => c ≠ ')'), Piece.lit ")"]

/-- The regex `/['"].*['"] \+ /` from `analyzePython`. -/
def pythonConcatRe : List Piece :=
  [Piece.one (fun c => c = '\'' || c = '"'), Piece.many (fun c => c ≠ '\n'),
   Piece.one (fun c => c = '\'' || c = '"'), Piece.lit " + "]

/-- The regex `/\w+\s*\*\s*\w+/` from `analyzeCpp`. -/
def cppRawPointerRe : List Piece :=
  [Piece.one isWordChar, Piece.many isWordChar, Piece.many jsIsWhitespace,
   Piece.lit "*", Piece.many jsIsWhitespace, Piece.one isWordChar, Piece.many isWordChar]

/-- The regex `/\s+$/` from `analyzeGeneric`. -/
def trailingWhitespaceRe : List Piece :=
  [Piece.one jsIsWhitespace, Piece.many jsIsWhitespace, Piece.eos]

/-! # Data model (`src/shared/schema.ts`) -/

/-- `CommentType` from `src/shared/schema.ts`. -/
inductive CommentType where
  | error
  | warning
  | suggestion
  | info
deriving DecidableEq, Repr

/-- `CodeComment` from `src/shared/schema.ts`. Line numbers are JavaScript
numbers, modelled as `Int`. -/
structure CodeComment where
  line : Int
  text : String
  type : CommentType
  suggestion : Option String := none
  file : Option String := none
  gitlabCommentId : Option Int := none
deriving DecidableEq, Repr

/-- `MetricScore` from `src/shared/schema.ts`. -/
structure MetricScore where
  grade : String
  score : Int
  change : Option Int := none
deriving DecidableEq, Repr

/-- The `metrics` record of `ReviewResult`. -/
structure Metrics where
  overall : MetricScore
  maintainability : MetricScore
  performance : MetricScore
  security : MetricScore
deriving DecidableEq, Repr

/-- Severity of an issue category (`"high" | "medium" | "low"`). -/
inductive Severity where
  | high
  | medium
  | low
deriving DecidableEq, Repr

/-- An entry of `issues.types`. -/
structure IssueType where
  name : String
  description : String
  severity : Severity
deriving DecidableEq, Repr

/-- The `issues` record of `ReviewResult`. -/
structure Issues where
  critical : Int
  warnings : Int
  info : Int
  types : List IssueType
deriving DecidableEq, Repr

/-- The optional `gitlabIntegration` record of `ReviewResult`. -/
structure GitlabIntegration where
  projectId : Option Int := none
  mergeRequestId : Option Int := none
  commitSha : Option String := none
  reviewUrl : Option String := none
  commentIds : Option (List Int) := none
deriving DecidableEq, Repr

/-- `ReviewResult` from `src/shared/schema.ts`. -/
structure ReviewResult where
  metrics : Metrics
  comments : List CodeComment
  improvedCode : Option String := none
  keyImprovements : Option (List String) := none
  issues : Issues
  gitlabIntegration : Option GitlabIntegration := none
deriving DecidableEq, Repr

/-- `CodeSubmission` from `src/shared/schema.ts`. -/
structure CodeSubmission where
  language : String
  reviewType : String
  code : String
  gitlabProjectId : Option Int := none
  gitlabMergeRequestId : Option Int := none
  gitlabCommitSha : Option String := none
deriving DecidableEq, Repr

/-! # Pattern analyzer (`performBasicAnalysis` and friends, `src/server/ai.ts`) -/

/-- `analyzeJavaScript(lines)` from `src/server/ai.ts`: console.log →
warning, `var ` → suggestion with `const` rewrite, loose equality →
warning with strict-equality rewrite. The `forEach`/`push` loop is
modelled by a fold that appends each line's comments in source order. -/
def analyzeJavaScript (lines : List String) : List CodeComment :=
  lines.enum.foldl
    (fun comments p =>
      let index := p.1
      let line := p.2
      comments
      ++ (if jsIncludes line "console.log" then
            [{ line := (index : Int) + 1,
               text := "Consider removing debug console.log statements in production code",
               type := CommentType.warning }]
          else [])
      ++ (if jsIncludes line "var " then
            [{ line := (index : Int) + 1,
               text := "Consider using 'let' or 'const' instead of 'var'",
               type := CommentType.suggestion,
               suggestion := some (jsReplaceFirst line "var " "const ") }]
          else [])
      ++ (if jsIncludes line " == " && !jsIncludes line " === " then
            [{ line := (index : Int) + 1,
               text := "Using loose equality (==) may lead to unexpected behavior. Consider using strict equality (===)",
               type := CommentType.warning,
               suggestion := some (jsReplaceFirst line " == " " === ") }]
          else []))
    []

/-- `analyzePython(lines)` from `src/server/ai.ts`. -/
def analyzePython (lines : List String) : List CodeComment :=
  lines.enum.foldl
    (fun comments p =>
      let index := p.1
      let line := p.2
      comments
      ++ (if jsIncludes line "print(" then
            [{ line := (index : Int) + 1,
               text := "Consider using logging instead of print statements in production code",
               type := CommentType.suggestion }]
          else [])
      ++ (if jsSearch line pythonMutableDefaultRe then
            [{ line := (index : Int) + 1,
               text := "Using mutable default arguments (empty list) can lead to unexpected behavior",
               type := CommentType.warning }]
          else [])
      ++ (if jsIncludes line " + " && jsSearch line pythonConcatRe then
            [{ line := (index : Int) + 1,
               text := "Consider using f-strings for string formatting instead of concatenation",
               type := CommentType.suggestion }]
          else []))
    []

/-- `analyzeJava(lines)` from `src/server/ai.ts`. -/
def analyzeJava (lines : List String) : List CodeComment :=
  lines.enum.foldl
    (fun comments p =>
      let index := p.1
      let line := p.2
      comments
      ++ (if jsIncludes line "System.out.println" then
            [{ line := (index : Int) + 1,
               text := "Consider using a logging framework instead of System.out.println in production code",
               type := CommentType.suggestion }]
          else [])
      ++ (if jsIncludes line " == null" then
            [{ line := (index : Int) + 1,
               text := "Consider using Optional<> to avoid null checks",
               type := CommentType.suggestion }]
          else []))
    []

/-- `analyzeCpp(lines)` from `src/server/ai.ts`. -/
def analyzeCpp (lines : List String) : List CodeComment :=
  lines.enum.foldl
    (fun comments p =>
      let index := p.1
      let line := p.2
      comments
      ++ (if jsIncludes line "using namespace std;" then
            [{ line := (index : Int) + 1,
               text := "Avoid using 'using namespace std' in header files as it can lead to name conflicts",
               type := CommentType.warning }]
          else [])
      ++ (if jsSearch line cppRawPointerRe then
            [{ line := (index : Int) + 1,
               text := "Consider using smart pointers (std::shared_ptr, std::unique_ptr) instead of raw pointers",
               type := CommentType.suggestion }]
          else []))
    []

/-- `analyzeGeneric(lines)` from `src/server/ai.ts`. -/
def analyzeGeneric (lines : List String) : List CodeComment :=
  lines.enum.foldl
    (fun comments p =>
      let index := p.1
      let line := p.2
      comments
      ++ (if line.length > 100 then
            [{ line := (index : Int) + 1,
               text := "Line is very long (over 100 characters). Consider breaking it up for readability",
               type := CommentType.suggestion }]
          else [])
      ++ (if jsSearch line trailingWhitespaceRe then
            [{ line := (index : Int) + 1,
               text := "Line contains trailing whitespace",
               type := CommentType.info,
               suggestion := some (String.mk (line.toList.reverse.dropWhile jsIsWhitespace).reverse) }]
          else []))
    []

/-- `performBasicAnalysis(submission)` from `src/server/ai.ts`: empty-code
short circuit, then the rule set keyed by the lowercased language. -/
def performBasicAnalysis (submission : CodeSubmission) : List CodeComment :=
  let lines := jsSplitNewline submission.code
  if (jsTrim submission.code).isEmpty then
    [{ line := 1, text := "Code is empty", type := CommentType.error }]
  else
    match jsToLowerCase submission.language with
    | "javascript" | "typescript" => analyzeJavaScript lines
    | "python" => analyzePython lines
    | "java" => analyzeJava lines
    | "c++" => analyzeCpp lines
    | _ => analyzeGeneric lines

/-! # Fallback result (`generateFallbackResult`, `src/server/ai.ts`) -/

/-- `generateFallbackResult(comments, language)` from `src/server/ai.ts`.
The mutable `grade`/`score` initialised to `"C"`/`70` and overwritten by
the `if`/`else if` chain is modelled as the chain with `("C", 70)` in the
final `else`. -/
def generateFallbackResult (comments : List CodeComment) (language : String) : ReviewResult :=
  let criticalCount := (comments.filter fun c => c.type == CommentType.error).length
  let warningCount := (comments.filter fun c => c.type == CommentType.warning).length
  let infoCount := (comments.filter fun c =>
    c.type == CommentType.info || c.type == CommentType.suggestion).length
  let totalIssues := criticalCount + warningCount + infoCount
  let gradeScore : String × Int :=
    if criticalCount == 0 && warningCount == 0 then ("A-", 90)
    else if criticalCount == 0 && warningCount ≤ 2 then ("B+", 85)
    else if criticalCount ≤ 1 && totalIssues ≤ 5 then ("B-", 80)
    else if criticalCount ≥ 3 then ("D+", 65)
    else ("C", 70)
  { metrics :=
      { overall := { grade := gradeScore.1, score := gradeScore.2 }
        maintainability := { grade := gradeScore.1, score := gradeScore.2 }
        performance := { grade := "C+", score := 75 }
        security := { grade := "C", score := 70 } }
    comments := comments
    issues :=
      { critical := (criticalCount : Int)
        warnings := (warningCount : Int)
        info := (infoCount : Int)
        types :=
          [{ name := "Analysis Limitations"
             description := "Limited analysis due to API constraints. Only basic issues detected."
             severity := Severity.medium },
           { name := "Static Analysis"
             description := "Basic " ++ language ++ " code analysis performed without semantic understanding."
             severity := Severity.medium }] }
    keyImprovements := some
      ["Fix identified syntax errors",
       "Address style inconsistencies",
       "Review code structure",
       "Consider security implications",
       "Ensure proper error handling"] }

/-! # Merge (`mergeAnalysisResults`, `src/server/ai.ts`) -/

/-- One step of building the `Map<number, Set<string>>` keyed by line:
`if (!map.has(line)) map.set(line, new Set()); map.get(line)?.add(text)`. -/
def mapAddText : List (Int × List String) → Int → String → List (Int × List String)
  | [], line, text => [(line, [text])]
  | (l, ts) :: tl, line, text =>
    if l = line then (l, if text ∈ ts then ts else ts ++ [text]) :: tl
    else (l, ts) :: mapAddText tl line text

/-- The `commentsByLine` map built from the AI result's comments. -/
def commentsByLine (comments : List CodeComment) : List (Int × List String) :=
  comments.foldl (fun m c => mapAddText m c.line c.text) []

/-- `commentsByLine.has(line)`. -/
def mapHasLine : List (Int × List String) → Int → Bool
  | [], _ => false
  | (l, _) :: tl, line => if l = line then true else mapHasLine tl line

/-- `commentsByLine.get(line)?.has(text)` (with `undefined` collapsing to
`false` through the `!` in the caller). -/
def mapHasText : List (Int × List String) → Int → String → Bool
  | [], _, _ => false
  | (l, ts) :: tl, line, text =>
    if l = line then decide (text ∈ ts) else mapHasText tl line text

/-- The body of the `staticComments.forEach` loop of
`mergeAnalysisResults`: append the comment and bump the matching issues
bucket unless an AI comment on the same line has identical text. -/
def mergeAddComment (m : List (Int × List String)) (aiResult : ReviewResult)
    (comment : CodeComment) : ReviewResult :=
  if !mapHasLine m comment.line || !mapHasText m comment.line comment.text then
    let r := { aiResult with comments := aiResult.comments ++ [comment] }
    if comment.type == CommentType.error then
      { r with issues.critical := r.issues.critical + 1 }
    else if comment.type == CommentType.warning then
      { r with issues.warnings := r.issues.warnings + 1 }
    else if comment.type == CommentType.info then
      { r with issues.info := r.issues.info + 1 }
    else r
  else aiResult

/-- `comments.sort((a, b) => a.line - b.line)`: a stable ascending sort by
line number (V8's sort is stable; modelled by insertion sort, which is
stable). -/
def sortComments (comments : List CodeComment) : List CodeComment :=
  List.insertionSort (fun a b => a.line ≤ b.line) comments

/-- `mergeAnalysisResults(aiResult, staticComments)` from `src/server/ai.ts`. -/
def mergeAnalysisResults (aiResult : ReviewResult) (staticComments : List CodeComment) :
    ReviewResult :=
  let m := commentsByLine aiResult.comments
  let r := staticComments.foldl (mergeAddComment m) aiResult
  { r with comments := sortComments r.comments }

/-! # Pipeline (`analyzeCode` in `src/server/ai.ts` plus the
`/api/review` route in `src/server/routes.ts`)

The remote model call is abstracted by `providerOutcome`: `some result`
models a successful provider chain returning a parsed `ReviewResult`,
`none` models every provider failing (rate limits, quota, thrown
errors), after which `analyzeCode` falls back to the static analyzer. -/

/-- `analyzeCode(submission)` from `src/server/ai.ts`, with the provider
chain abstracted by its outcome. -/
def analyzeCode (submission : CodeSubmission) (providerOutcome : Option ReviewResult) :
    ReviewResult :=
  match providerOutcome with
  | some result => result
  | none => generateFallbackResult (performBasicAnalysis submission) submission.language

/-- The `/api/review` pipeline of `src/server/routes.ts`: static analysis,
then AI analysis, then merge. -/
def reviewPipeline (submission : CodeSubmission) (providerOutcome : Option ReviewResult) :
    ReviewResult :=
  let staticAnalysisComments := performBasicAnalysis submission
  let aiAnalysisResult := analyzeCode submission providerOutcome
  mergeAnalysisResults aiAnalysisResult staticAnalysisComments

/-! # Retry and model fallback (`callOpenAIWithRetry`, `src/server/ai.ts`)

The remote call is abstracted by `behavior`, giving the outcome of the
attempt on a given model with a given `retryCount` value. The error
flags correspond to `error.status === 429` (`isRateLimitError`) and
`error.code === "insufficient_quota"` (`isQuotaError`). Besides the
result the model also records the trace of attempts `(model,
retryCount)` actually made, so that claims about the number of attempts
are observable. -/

/-- Outcome of a single chat-completion attempt. -/
inductive ApiOutcome where
  | success (result : ReviewResult)
  | failure (isRateLimitError : Bool) (isQuotaError : Bool)
deriving DecidableEq, Repr

/-- `OPENAI_MODEL` constant from `src/server/ai.ts`. -/
def OPENAI_MODEL : String := "gpt-4o"

/-- `FALLBACK_MODEL` constant from `src/server/ai.ts`. -/
def FALLBACK_MODEL : String := "gpt-3.5-turbo"

/-- `MAX_RETRIES` constant from `src/server/ai.ts`. -/
def MAX_RETRIES : Nat := 2

/-- `callOpenAIWithRetry(prompt, currentModel, retryCount)` from
`src/server/ai.ts`, instrumented with the list of attempts made. -/
def callOpenAIWithRetry (behavior : String → Nat → ApiOutcome) (currentModel : String)
    (retryCount : Nat) : Option ReviewResult × List (String × Nat) :=
  match behavior currentModel retryCount with
  | ApiOutcome.success result => (some result, [(currentModel, retryCount)])
  | ApiOutcome.failure isRateLimitError isQuotaError =>
    if h1 : retryCount < MAX_RETRIES ∧ isRateLimitError = true ∧ isQuotaError = false then
      let rest := callOpenAIWithRetry behavior currentModel (retryCount + 1)
      (rest.1, (currentModel, retryCount) :: rest.2)
    else if h2 : currentModel = OPENAI_MODEL ∧ (isRateLimitError = true ∨ isQuotaError = true) then
      let rest := callOpenAIWithRetry behavior FALLBACK_MODEL 0
      (rest.1, (currentModel, retryCount) :: rest.2)
    else
      (none, [(currentModel, retryCount)])
  termination_by
    ((if currentModel = OPENAI_MODEL then 1 else 0), MAX_RETRIES + 1 - retryCount)
  decreasing_by
    · exact Prod.Lex.right _ (by omega)
    · rw [h2.1]
      have hne : ¬(FALLBACK_MODEL = OPENAI_MODEL) := by decide
      simp only [hne, eq_self_iff_true, if_true, if_false]
      exact Prod.Lex.left _ _ (by omega)

/-! # Synthetic result from non-JSON text
(`createSyntheticResultFromText`, `src/server/huggingface.ts`) -/

/-- The code-likeness test of `createSyntheticResultFromText`:
`text.includes('import ') || ... || text.includes('let ')`. -/
def containsCodeTokens (text : String) : Bool :=
  jsIncludes text "import " || jsIncludes text "function " || jsIncludes text "class " ||
    jsIncludes text "const " || jsIncludes text "let "

/-- The keyword classification of a trimmed line inside
`createSyntheticResultFromText`. -/
def classifyLine (trimmedLine : String) : CommentType :=
  if jsIncludes (jsToLowerCase trimmedLine) "error" || jsIncludes (jsToLowerCase trimmedLine) "critical" ||
      jsIncludes (jsToLowerCase trimmedLine) "severe" then
    CommentType.error
  else if jsIncludes (jsToLowerCase trimmedLine) "warning" || jsIncludes (jsToLowerCase trimmedLine) "caution" ||
      jsIncludes (jsToLowerCase trimmedLine) "consider" then
    CommentType.warning
  else if jsIncludes (jsToLowerCase trimmedLine) "suggest" || jsIncludes (jsToLowerCase trimmedLine) "recommend" ||
      jsIncludes (jsToLowerCase trimmedLine) "improvement" then
    CommentType.suggestion
  else
    CommentType.info

/-- One iteration of the `for (const line of lines)` loop of
`createSyntheticResultFromText`: the state is `(currentLine, comments)`. -/
def synthStep (st : Int × List CodeComment) (line : String) : Int × List CodeComment :=
  let currentLine := st.1
  let comments := st.2
  let trimmedLine := jsTrim line
  if trimmedLine.isEmpty then
    (currentLine + 1, comments)
  else
    let ty := classifyLine trimmedLine
    if trimmedLine.length > 20 then
      (currentLine + 1, comments ++ [{ line := currentLine, text := trimmedLine, type := ty }])
    else
      (currentLine + 1, comments)

/-- `createSyntheticResultFromText(text, modelName)` from
`src/server/huggingface.ts` (`src/unnamed/part_008`). -/
def createSyntheticResultFromText (text modelName : String) : ReviewResult :=
  let lines := jsSplitNewline text
  let isCodeResponse := containsCodeTokens text
  let improvedCode := if isCodeResponse then text else ""
  let comments : List CodeComment :=
    if isCodeResponse then
      [{ line := 1,
         text := "The model provided an improved version of your code instead of a detailed analysis.",
         type := CommentType.info }]
    else
      (lines.foldl synthStep (1, [])).2
  let criticalCount := (comments.filter fun c => c.type == CommentType.error).length
  let warningCount := (comments.filter fun c => c.type == CommentType.warning).length
  let infoCount := (comments.filter fun c =>
    c.type == CommentType.info || c.type == CommentType.suggestion).length
  let gradeScore : String × Int :=
    if isCodeResponse then ("B+", 85)
    else if criticalCount > 2 then ("C+", 75)
    else if warningCount > 5 then ("B-", 80)
    else ("B-", 80)
  { metrics :=
      { overall := { grade := gradeScore.1, score := gradeScore.2 }
        maintainability := { grade := gradeScore.1, score := gradeScore.2 }
        performance := { grade := gradeScore.1, score := gradeScore.2 - 5 }
        security := { grade := gradeScore.1, score := gradeScore.2 - 5 } }
    comments :=
      if comments.length > 0 then comments
      else
        [{ line := 1,
           text := "The analysis model provided a non-standard response. Basic analysis has been provided instead.",
           type := CommentType.info }]
    improvedCode := if improvedCode.isEmpty then none else some improvedCode
    issues :=
      { critical := (criticalCount : Int)
        warnings := (warningCount : Int)
        info := (infoCount : Int)
        types :=
          [{ name := "Model Response Issue"
             description := "The " ++ modelName ++ " model didn't return a valid JSON response. Limited analysis available."
             severity := Severity.medium }] }
    keyImprovements := some
      (if isCodeResponse then
        ["Improved code structure", "Enhanced readability", "Fixed potential issues"]
      else
        ["Consider security best practices", "Improve error handling", "Enhance code organization"]) }

/-! # Derived notions used by the claims -/

/-- Number of comments of a given type. -/
def countOfType (t : CommentType) (comments : List CodeComment) : Nat :=
  comments.countP (fun c => c.type == t)

/-- Number of comments with a given line and text. -/
def countPair (line : Int) (text : String) (comments : List CodeComment) : Nat :=
  comments.countP (fun c => c.line == line && c.text == text)

/-- The counting invariant of `IssuesSummary`: the three issue counters
sum to the number of comments counted in their buckets
(error → critical, warning → warnings, info and suggestion → info). -/
def issuesInvariant (r : ReviewResult) : Prop :=
  r.issues.critical + r.issues.warnings + r.issues.info =
    (countOfType CommentType.error r.comments : Int) +
      (countOfType CommentType.warning r.comments : Int) +
      ((countOfType CommentType.info r.comments : Int) +
        (countOfType CommentType.suggestion r.comments : Int))

instance (r : ReviewResult) : Decidable (issuesInvariant r) := by
  unfold issuesInvariant; infer_instance

/-- The static findings that `mergeAnalysisResults` actually appends:
those for which no AI comment on the same line has identical text. -/
def addedComments (aiResult : ReviewResult) (staticComments : List CodeComment) :
    List CodeComment :=
  let m := commentsByLine aiResult.comments
  staticComments.filter (fun c => !mapHasLine m c.line || !mapHasText m c.line c.text)

/-- Modelled from the spec: the five fixed grade/score pairs of §4.3
step 4 and §8 item 6, selected by the thresholds exactly as the
specification states them, for comparison with `generateFallbackResult`. -/
def specFallbackOverall (criticalCount warningCount totalIssues : Nat) : String × Int :=
  if criticalCount = 0 ∧ warningCount = 0 then ("A-", 90)
  else if criticalCount = 0 ∧ warningCount ≤ 2 then ("B+", 85)
  else if criticalCount ≤ 1 ∧ totalIssues ≤ 5 then ("B-", 80)
  else if criticalCount ≥ 3 then ("D+", 65)
  else ("C", 70)

/-! # Dynamic values: the merge on raw parsed JSON

`JSON.parse(content) as ReviewResult` in the provider clients is a cast,
not a validation, so `mergeAnalysisResults` can receive a value of any
JSON shape. This layer models the merge's property accesses and
mutations on raw parsed values: `Json` is a parsed JSON value (plus
`nan`, a runtime-only number produced by coercions; `JSON.parse` itself
never yields it), and accesses that would raise a `TypeError` return
`Except.error`. -/

/-- A parsed JSON value, plus the runtime-only `nan`. -/
inductive Json where
  | null
  | bool (b : Bool)
  | num (n : Int)
  | str (s : String)
  | arr (elems : List Json)
  | obj (fields : List (String × Json))
  | nan

/-- JS truthiness of a value. -/
def jsTruthy : Json → Bool
  | Json.null => false
  | Json.bool b => b
  | Json.num n => decide (n ≠ 0)
  | Json.str s => !s.isEmpty
  | Json.arr _ => true
  | Json.obj _ => true
  | Json.nan => false

/-- First binding of a key in an object's field list (`JSON.parse` keeps
one binding per key, so parsed objects have unique keys). -/
def jsonLookup : List (String × Json) → String → Option Json
  | [], _ => none
  | (k, v) :: tl, key => if k = key then some v else jsonLookup tl key

/-- JS member access `v.k`: throws a `TypeError` on `null`, yields the
field on objects, and `undefined` (modelled as `none`) on every other
value. -/
def jsGet (v : Json) (k : String) : Except String (Option Json) :=
  match v with
  | Json.null =>
    Except.error ("TypeError: Cannot read properties of null (reading " ++ k ++ ")")
  | Json.obj fields => Except.ok (jsonLookup fields k)
  | _ => Except.ok none

/-- Property assignment on an object's field list: update the binding in
place, or append a new one. -/
def jsSetField : List (String × Json) → String → Json → List (String × Json)
  | [], k, v => [(k, v)]
  | (k1, v1) :: tl, k, v =>
    if k1 = k then (k, v) :: tl else (k1, v1) :: jsSetField tl k v

/-- `o.k = v` on an object (only reached on objects in this development). -/
def jsSet (o : Json) (k : String) (v : Json) : Json :=
  match o with
  | Json.obj fields => Json.obj (jsSetField fields k v)
  | _ => o

/-- JS `Map`/`Set` key equality (sameValueZero): primitives compare by
value; objects and arrays compare by reference, and values produced by
`JSON.parse` are never aliased, so two distinct object nodes are never
equal keys. -/
def jsSameValueZero : Json → Json → Bool
  | Json.null, Json.null => true
  | Json.bool a, Json.bool b => a == b
  | Json.num a, Json.num b => a == b
  | Json.str a, Json.str b => a == b
  | _, _ => false

/-- Key equality lifted to possibly-`undefined` keys. -/
def jsKeyEq : Option Json → Option Json → Bool
  | none, none => true
  | some a, some b => jsSameValueZero a b
  | _, _ => false

/-- One step of building `Map<line, Set<text>>` over dynamic values. -/
def dynMapAdd : List (Option Json × List (Option Json)) → Option Json → Option Json →
    List (Option Json × List (Option Json))
  | [], line, text => [(line, [text])]
  | (l, ts) :: tl, line, text =>
    if jsKeyEq l line then
      (l, if ts.any (fun t => jsKeyEq t text) then ts else ts ++ [text]) :: tl
    else (l, ts) :: dynMapAdd tl line text

/-- `commentsByLine.has(line)` over dynamic keys. -/
def dynMapHasLine : List (Option Json × List (Option Json)) → Option Json → Bool
  | [], _ => false
  | (l, _) :: tl, line => if jsKeyEq l line then true else dynMapHasLine tl line

/-- `commentsByLine.get(line)?.has(text)` over dynamic keys. -/
def dynMapHasText : List (Option Json × List (Option Json)) → Option Json → Option Json → Bool
  | [], _, _ => false
  | (l, ts) :: tl, line, text =>
    if jsKeyEq l line then ts.any (fun t => jsKeyEq t text) else dynMapHasText tl line text

/-- The `aiResult.comments.forEach` loop building the map: accessing
`comment.line` or `comment.text` on a `null` element throws. -/
def buildCommentsByLineDyn (aiComments : List Json) :
    Except String (List (Option Json × List (Option Json))) :=
  aiComments.foldlM
    (fun m c => do
      let line ← jsGet c "line"
      let text ← jsGet c "text"
      Except.ok (dynMapAdd m line text))
    []

mutual

/-- String coercion of a value (used by `+` on arrays and objects). -/
def jsToStr : Json → String
  | Json.null => "null"
  | Json.bool b => cond b "true" "false"
  | Json.num n => toString n
  | Json.str s => s
  | Json.arr es => jsToStrElems es
  | Json.obj _ => "[object Object]"
  | Json.nan => "NaN"

/-- `Array.prototype.toString`: elements joined by commas, `null` as
empty. -/
def jsToStrElems : List Json → String
  | [] => ""
  | [e] => jsToStrElem e
  | e :: es => jsToStrElem e ++ "," ++ jsToStrElems es

/-- One element inside an array join. -/
def jsToStrElem : Json → String
  | Json.null => ""
  | Json.bool b => cond b "true" "false"
  | Json.num n => toString n
  | Json.str s => s
  | Json.arr es => jsToStrElems es
  | Json.obj _ => "[object Object]"
  | Json.nan => "NaN"

end

/-- JS `x + 1` for the value (or `undefined`) read from a counter field:
numbers increment, non-numbers coerce (string concatenation,
`true + 1 = 2`, `null + 1 = 1`, `undefined + 1 = NaN`). -/
def jsIncr : Option Json → Json
  | some (Json.num n) => Json.num (n + 1)
  | some (Json.str s) => Json.str (s ++ "1")
  | some (Json.bool true) => Json.num 2
  | some (Json.bool false) => Json.num 1
  | some Json.null => Json.num 1
  | some (Json.arr es) => Json.str (jsToStr (Json.arr es) ++ "1")
  | some (Json.obj fs) => Json.str (jsToStr (Json.obj fs) ++ "1")
  | some Json.nan => Json.nan
  | none => Json.nan

/-- `aiResult.issues.k += 1`: reads `aiResult.issues` (throwing if it is
`undefined` or `null`), adds one to the field with JS coercions, and
writes it back. Assigning a property to a primitive (or, approximated
here, an array) target raises a strict-mode `TypeError`. -/
def jsIncrIssueField (aiResult : Json) (k : String) : Except String Json := do
  let issuesOpt ← jsGet aiResult "issues"
  match issuesOpt with
  | none =>
    Except.error ("TypeError: Cannot read properties of undefined (reading " ++ k ++ ")")
  | some issues =>
    match issues with
    | Json.null =>
      Except.error ("TypeError: Cannot read properties of null (reading " ++ k ++ ")")
    | Json.obj fields =>
      Except.ok (jsSet aiResult "issues"
        (Json.obj (jsSetField fields k (jsIncr (jsonLookup fields k)))))
    | _ => Except.error ("TypeError: Cannot create property " ++ k)

/-- `comments.sort((a, b) => a.line - b.line)` on dynamic elements: the
comparator dereferences `line` on the elements; non-numeric keys make it
return `NaN`, which the engine treats as 0 (keep order). -/
def dynLineLe : Option Json → Option Json → Bool
  | some (Json.num a), some (Json.num b) => decide (a ≤ b)
  | _, _ => true

/-- The final sort of the merged comments array. -/
def dynSortByLine (comments : List Json) : Except String (List Json) := do
  let keyed ← comments.mapM (fun c => do
    let l ← jsGet c "line"
    Except.ok (l, c))
  Except.ok ((List.insertionSort (fun a b => dynLineLe a.1 b.1) keyed).map (fun p => p.2))

/-! ## Encoding well-typed values as dynamic values -/

/-- The wire string of a comment type. -/
def commentTypeString : CommentType → String
  | CommentType.error => "error"
  | CommentType.warning => "warning"
  | CommentType.suggestion => "suggestion"
  | CommentType.info => "info"

/-- The wire string of a severity. -/
def severityString : Severity → String
  | Severity.high => "high"
  | Severity.medium => "medium"
  | Severity.low => "low"

/-- A `CodeComment` as the object the code would hold at runtime
(optional fields present only when set). -/
def jsonOfComment (c : CodeComment) : Json :=
  Json.obj
    ([("line", Json.num c.line), ("text", Json.str c.text),
      ("type", Json.str (commentTypeString c.type))]
      ++ (match c.suggestion with | some s => [("suggestion", Json.str s)] | none => [])
      ++ (match c.file with | some s => [("file", Json.str s)] | none => [])
      ++ (match c.gitlabCommentId with
          | some n => [("gitlabCommentId", Json.num n)] | none => []))

/-- A `MetricScore` as a dynamic value. -/
def jsonOfMetricScore (m : MetricScore) : Json :=
  Json.obj
    ([("grade", Json.str m.grade), ("score", Json.num m.score)]
      ++ (match m.change with | some n => [("change", Json.num n)] | none => []))

/-- An `issues.types` entry as a dynamic value. -/
def jsonOfIssueType (t : IssueType) : Json :=
  Json.obj [("name", Json.str t.name), ("description", Json.str t.description),
            ("severity", Json.str (severityString t.severity))]

/-- A `gitlabIntegration` record as a dynamic value. -/
def jsonOfGitlab (g : GitlabIntegration) : Json :=
  Json.obj
    ((match g.projectId with | some n => [("projectId", Json.num n)] | none => [])
      ++ (match g.mergeRequestId with | some n => [("mergeRequestId", Json.num n)] | none => [])
      ++ (match g.commitSha with | some s => [("commitSha", Json.str s)] | none => [])
      ++ (match g.reviewUrl with | some s => [("reviewUrl", Json.str s)] | none => [])
      ++ (match g.commentIds with
          | some l => [("commentIds", Json.arr (l.map Json.num))] | none => []))

/-- A `ReviewResult` as a dynamic value. -/
def jsonOfReviewResult (r : ReviewResult) : Json :=
  Json.obj
    ([("metrics", Json.obj
        [("overall", jsonOfMetricScore r.metrics.overall),
         ("maintainability", jsonOfMetricScore r.metrics.maintainability),
         ("performance", jsonOfMetricScore r.metrics.performance),
         ("security", jsonOfMetricScore r.metrics.security)]),
      ("comments", Json.arr (r.comments.map jsonOfComment))]
      ++ (match r.improvedCode with | some s => [("improvedCode", Json.str s)] | none => [])
      ++ (match r.keyImprovements with
          | some l => [("keyImprovements", Json.arr (l.map Json.str))] | none => [])
      ++ [("issues", Json.obj
            [("critical", Json.num r.issues.critical),
             ("warnings", Json.num r.issues.warnings),
             ("info", Json.num r.issues.info),
             ("types", Json.arr (r.issues.types.map jsonOfIssueType))])]
      ++ (match r.gitlabIntegration with
          | some g => [("gitlabIntegration", jsonOfGitlab g)] | none => []))

/-! ## Structural well-formedness of a dynamic value (`ReviewResult`
shape of `src/shared/schema.ts`) -/

/-- Is the value a number? -/
def isNumJson : Json → Bool
  | Json.num _ => true
  | _ => false

/-- Is the value a string? -/
def isStrJson : Json → Bool
  | Json.str _ => true
  | _ => false

/-- Is the value an array of strings? -/
def isStrArrJson : Json → Bool
  | Json.arr es => es.all isStrJson
  | _ => false

/-- Required field of an object with a given shape. -/
def fieldIs (j : Json) (k : String) (p : Json → Bool) : Bool :=
  match j with
  | Json.obj fields =>
    match jsonLookup fields k with
    | some v => p v
    | none => false
  | _ => false

/-- Optional field: absent, or present with the given shape. -/
def optFieldIs (j : Json) (k : String) (p : Json → Bool) : Bool :=
  match j with
  | Json.obj fields =>
    match jsonLookup fields k with
    | some v => p v
    | none => true
  | _ => false

/-- Shape of a `MetricScore`. -/
def metricScoreShape (j : Json) : Bool :=
  fieldIs j "grade" isStrJson && fieldIs j "score" isNumJson && optFieldIs j "change" isNumJson

/-- Shape of a `CodeComment`. -/
def commentShape (j : Json) : Bool :=
  fieldIs j "line" isNumJson && fieldIs j "text" isStrJson &&
    fieldIs j "type" (fun v =>
      match v with
      | Json.str "error" | Json.str "warning" | Json.str "suggestion" | Json.str "info" => true
      | _ => false) &&
    optFieldIs j "suggestion" isStrJson && optFieldIs j "file" isStrJson &&
    optFieldIs j "gitlabCommentId" isNumJson

/-- Shape of an `issues.types` entry. -/
def issueTypeShape (j : Json) : Bool :=
  fieldIs j "name" isStrJson && fieldIs j "description" isStrJson &&
    fieldIs j "severity" (fun v =>
      match v with
      | Json.str "high" | Json.str "medium" | Json.str "low" => true
      | _ => false)

/-- Shape of the `issues` record. -/
def issuesShape (j : Json) : Bool :=
  fieldIs j "critical" isNumJson && fieldIs j "warnings" isNumJson &&
    fieldIs j "info" isNumJson &&
    fieldIs j "types" (fun v =>
      match v with
      | Json.arr es => es.all issueTypeShape
      | _ => false)

/-- Shape of the `metrics` record. -/
def metricsShape (j : Json) : Bool :=
  fieldIs j "overall" metricScoreShape && fieldIs j "maintainability" metricScoreShape &&
    fieldIs j "performance" metricScoreShape && fieldIs j "security" metricScoreShape

/-- Shape of the optional `gitlabIntegration` record. -/
def gitlabShape (j : Json) : Bool :=
  optFieldIs j "projectId" isNumJson && optFieldIs j "mergeRequestId" isNumJson &&
    optFieldIs j "commitSha" isStrJson && optFieldIs j "reviewUrl" isStrJson &&
    optFieldIs j "commentIds" (fun v =>
      match v with
      | Json.arr es => es.all isNumJson
      | _ => false) &&
    (match j with | Json.obj _ => true | _ => false)

/-- A well-formed `ReviewResult` as a dynamic value. -/
def ReviewResultShape (j : Json) : Bool :=
  fieldIs j "metrics" metricsShape &&
    fieldIs j "comments" (fun v =>
      match v with
      | Json.arr es => es.all commentShape
      | _ => false) &&
    fieldIs j "issues" issuesShape &&
    optFieldIs j "improvedCode" isStrJson &&
    optFieldIs j "keyImprovements" isStrArrJson &&
    optFieldIs j "gitlabIntegration" gitlabShape

/-! ## The merge and the pipeline on dynamic values -/

/-- The body of the `staticComments.forEach` loop of
`mergeAnalysisResults` on a dynamic AI result: the state is the comments
array and the (mutated) result object. -/
def mergeAddCommentDyn (commentsByLineMap : List (Option Json × List (Option Json)))
    (st : List Json × Json) (comment : CodeComment) : Except String (List Json × Json) :=
  if !dynMapHasLine commentsByLineMap (some (Json.num comment.line)) ||
      !dynMapHasText commentsByLineMap (some (Json.num comment.line))
        (some (Json.str comment.text)) then
    let cs := st.1 ++ [jsonOfComment comment]
    if comment.type = CommentType.error then do
      let ai ← jsIncrIssueField st.2 "critical"
      Except.ok (cs, ai)
    else if comment.type = CommentType.warning then do
      let ai ← jsIncrIssueField st.2 "warnings"
      Except.ok (cs, ai)
    else if comment.type = CommentType.info then do
      let ai ← jsIncrIssueField st.2 "info"
      Except.ok (cs, ai)
    else
      Except.ok (cs, st.2)
  else
    Except.ok st

/-- `mergeAnalysisResults(aiResult, staticComments)` on a raw parsed
value: `aiResult.comments.forEach` throws unless `comments` is an array,
then the dedup map is built, the static findings are folded in, and the
array is sorted and written back. -/
def mergeAnalysisResultsDyn (aiResult : Json) (staticComments : List CodeComment) :
    Except String Json := do
  let commentsField ← jsGet aiResult "comments"
  match commentsField with
  | some (Json.arr aiComments) => do
    let commentsByLineMap ← buildCommentsByLineDyn aiComments
    let st ← staticComments.foldlM (mergeAddCommentDyn commentsByLineMap)
      (aiComments, aiResult)
    let sorted ← dynSortByLine st.1
    Except.ok (jsSet st.2 "comments" (Json.arr sorted))
  | _ => Except.error "TypeError: aiResult.comments.forEach is not a function"

/-- `analyzeCode` with the provider outcome as a raw parsed value
(`null`/failure is `none`): the truthiness check `if (openAIResult)`
sends falsy parses to the static fallback. -/
def analyzeCodeDyn (submission : CodeSubmission) (providerOutcome : Option Json) : Json :=
  match providerOutcome with
  | some j =>
    if jsTruthy j then j
    else jsonOfReviewResult
      (generateFallbackResult (performBasicAnalysis submission) submission.language)
  | none =>
    jsonOfReviewResult
      (generateFallbackResult (performBasicAnalysis submission) submission.language)

/-- The `/api/review` pipeline on a raw provider outcome. -/
def reviewPipelineDyn (submission : CodeSubmission) (providerOutcome : Option Json) :
    Except String Json :=
  mergeAnalysisResultsDyn (analyzeCodeDyn submission providerOutcome)
    (performBasicAnalysis submission)

/-! # Concrete fixtures used by witnesses and counterexamples -/

/-- A well-formed AI result with no comments and zeroed counters, as a
provider could legitimately return it. -/
def aiR0 : ReviewResult :=
  { metrics :=
      { overall := { grade := "A", score := 95 }
        maintainability := { grade := "A", score := 95 }
        performance := { grade := "A", score := 95 }
        security := { grade := "A", score := 95 } }
    comments := []
    issues := { critical := 0, warnings := 0, info := 0, types := [] } }

/-- A JavaScript submission whose only static finding is a `var` suggestion. -/
def subVar : CodeSubmission :=
  { language := "JavaScript", reviewType := "Comprehensive", code := "var x = 1;" }

/-- A JavaScript submission whose only static finding is a loose-equality warning. -/
def subEq : CodeSubmission :=
  { language := "JavaScript", reviewType := "Comprehensive", code := "if (x == 1) \x7b y(); \x7d" }

/-- The end-to-end scenario submission of §8 item 8. -/
def sub3 : CodeSubmission :=
  { language := "JavaScript", reviewType := "Comprehensive",
    code := "var x = 1;\nif (x == 1) \x7b console.log(x); \x7d" }

/-- A whitespace-only submission. -/
def subWS : CodeSubmission :=
  { language := "Python", reviewType := "Comprehensive", code := " \n\t " }

/-- A suggestion-type static finding. -/
def sugFinding : CodeComment :=
  { line := 1, text := "t", type := CommentType.suggestion }

/-- An info comment at line 5 with text `"X"`. -/
def infoX5 : CodeComment := { line := 5, text := "X", type := CommentType.info }

/-- A well-formed AI result that contains the comment `infoX5` twice,
with counters matching its comments. -/
def aiDup : ReviewResult :=
  { metrics := aiR0.metrics
    comments := [infoX5, infoX5]
    issues := { critical := 0, warnings := 0, info := 2, types := [] } }

/-- A well-formed AI result that contains the comment `infoX5` once. -/
def aiOne : ReviewResult :=
  { metrics := aiR0.metrics
    comments := [infoX5]
    issues := { critical := 0, warnings := 0, info := 1, types := [] } }

/-- A provider behavior that rate-limits every attempt except the one
with retry counter 2 on the primary model, which succeeds. -/
def b4 : String → Nat → ApiOutcome :=
  fun model retryCount =>
    if model = OPENAI_MODEL ∧ retryCount = 2 then ApiOutcome.success aiR0
    else ApiOutcome.failure true false

/-- A 119-character, 8-line, code-token-free provider response whose
lines all have at most 20 characters. -/
def t9 : String :=
  "aaaa bbbb cccc\naaaa bbbb cccc\naaaa bbbb cccc\naaaa bbbb cccc\naaaa bbbb cccc\naaaa bbbb cccc\naaaa bbbb cccc\naaaa bbbb cccc"

/-- A one-line, code-token-free provider response longer than 20
characters containing the keyword `warning`. -/
def t9w : String := "This line contains a warning for sure"

/-! # Lemmas about the comment map and the merge -/

theorem mapAddText_hasText (m : List (Int × List String)) (l0 : Int) (t0 : String)
    (l : Int) (t : String) :
    mapHasText (mapAddText m l0 t0) l t =
      (mapHasText m l t || (decide (l0 = l) && decide (t0 = t))) := by
  induction m with
  | nil =>
    by_cases h : l0 = l
    · subst h
      by_cases ht : t0 = t
      · subst ht; simp [mapAddText, mapHasText]
      · simp [mapAddText, mapHasText, ht, Ne.symm ht]
    · simp [mapAddText, mapHasText, h]
  | cons hd tl ih =>
    obtain ⟨lh, ts⟩ := hd
    by_cases h : lh = l0
    · subst h
      by_cases h2 : lh = l
      · subst h2
        by_cases hmem : t0 ∈ ts
        · by_cases ht : t0 = t
          · subst ht; simp [mapAddText, mapHasText, hmem]
          · simp [mapAddText, mapHasText, hmem, ht]
        · by_cases ht : t0 = t
          · subst ht; simp [mapAddText, mapHasText, hmem]
          · simp [mapAddText, mapHasText, hmem, ht, Ne.symm ht]
      · simp [mapAddText, mapHasText, h2]
    · by_cases h2 : lh = l
      · subst h2
        simp [mapAddText, mapHasText, h, Ne.symm h]
      · simp [mapAddText, mapHasText, h, h2, ih]

theorem foldl_mapAdd_hasText (cs : List CodeComment) :
    ∀ (m : List (Int × List String)) (l : Int) (t : String),
      mapHasText (cs.foldl (fun m c => mapAddText m c.line c.text) m) l t =
        (mapHasText m l t || cs.any (fun c => decide (c.line = l) && decide (c.text = t))) := by
  induction cs with
  | nil => intro m l t; simp
  | cons c cs ih =>
    intro m l t
    rw [List.foldl_cons, ih, mapAddText_hasText]
    simp [Bool.or_assoc]

theorem commentsByLine_hasText (cs : List CodeComment) (l : Int) (t : String) :
    mapHasText (commentsByLine cs) l t =
      cs.any (fun c => decide (c.line = l) && decide (c.text = t)) := by
  have := foldl_mapAdd_hasText cs [] l t
  simpa [commentsByLine, mapHasText] using this

theorem mapHasText_hasLine : ∀ {m : List (Int × List String)} {l : Int} {t : String},
    mapHasText m l t = true → mapHasLine m l = true := by
  intro m
  induction m with
  | nil => intro l t h; simp [mapHasText] at h
  | cons hd tl ih =>
    intro l t h
    obtain ⟨lh, ts⟩ := hd
    by_cases hc : lh = l
    · simp [mapHasLine, hc]
    · simp only [mapHasText, if_neg hc] at h
      simp [mapHasLine, hc]
      exact ih h

theorem added_cond_eq (cs : List CodeComment) (c : CodeComment) :
    (!mapHasLine (commentsByLine cs) c.line || !mapHasText (commentsByLine cs) c.line c.text) =
      !(cs.any (fun a => decide (a.line = c.line) && decide (a.text = c.text))) := by
  rw [← commentsByLine_hasText]
  cases hT : mapHasText (commentsByLine cs) c.line c.text
  · simp
  · simp [mapHasText_hasLine hT]

theorem addedComments_eq (ai : ReviewResult) (st : List CodeComment) :
    addedComments ai st =
      st.filter
        (fun c => !(ai.comments.any (fun a => decide (a.line = c.line) && decide (a.text = c.text)))) := by
  unfold addedComments
  exact List.filter_congr (fun c _ => added_cond_eq ai.comments c)

theorem mergeAddComment_spec (m : List (Int × List String)) (r0 : ReviewResult)
    (c : CodeComment) :
    (mergeAddComment m r0 c).metrics = r0.metrics ∧
    (mergeAddComment m r0 c).improvedCode = r0.improvedCode ∧
    (mergeAddComment m r0 c).keyImprovements = r0.keyImprovements ∧
    (mergeAddComment m r0 c).gitlabIntegration = r0.gitlabIntegration ∧
    (mergeAddComment m r0 c).issues.types = r0.issues.types ∧
    (mergeAddComment m r0 c).comments =
      r0.comments ++
        (if (!mapHasLine m c.line || !mapHasText m c.line c.text) = true then [c] else []) ∧
    (mergeAddComment m r0 c).issues.critical =
      r0.issues.critical +
        (if (!mapHasLine m c.line || !mapHasText m c.line c.text) = true ∧
            c.type = CommentType.error then 1 else 0) ∧
    (mergeAddComment m r0 c).issues.warnings =
      r0.issues.warnings +
        (if (!mapHasLine m c.line || !mapHasText m c.line c.text) = true ∧
            c.type = CommentType.warning then 1 else 0) ∧
    (mergeAddComment m r0 c).issues.info =
      r0.issues.info +
        (if (!mapHasLine m c.line || !mapHasText m c.line c.text) = true ∧
            c.type = CommentType.info then 1 else 0) := by
  by_cases hc : (!mapHasLine m c.line || !mapHasText m c.line c.text) = true
  · cases hty : c.type <;> simp [mergeAddComment, hc, hty]
  · simp [mergeAddComment, hc]

theorem foldl_mergeAddComment_spec (m : List (Int × List String)) :
    ∀ (cs : List CodeComment) (r0 : ReviewResult),
      (cs.foldl (mergeAddComment m) r0).metrics = r0.metrics ∧
      (cs.foldl (mergeAddComment m) r0).improvedCode = r0.improvedCode ∧
      (cs.foldl (mergeAddComment m) r0).keyImprovements = r0.keyImprovements ∧
      (cs.foldl (mergeAddComment m) r0).gitlabIntegration = r0.gitlabIntegration ∧
      (cs.foldl (mergeAddComment m) r0).issues.types = r0.issues.types ∧
      (cs.foldl (mergeAddComment m) r0).comments =
        r0.comments ++ cs.filter (fun c => !mapHasLine m c.line || !mapHasText m c.line c.text) ∧
      (cs.foldl (mergeAddComment m) r0).issues.critical =
        r0.issues.critical +
          (countOfType CommentType.error
            (cs.filter (fun c => !mapHasLine m c.line || !mapHasText m c.line c.text)) : Int) ∧
      (cs.foldl (mergeAddComment m) r0).issues.warnings =
        r0.issues.warnings +
          (countOfType CommentType.warning
            (cs.filter (fun c => !mapHasLine m c.line || !mapHasText m c.line c.text)) : Int) ∧
      (cs.foldl (mergeAddComment m) r0).issues.info =
        r0.issues.info +
          (countOfType CommentType.info
            (cs.filter (fun c => !mapHasLine m c.line || !mapHasText m c.line c.text)) : Int) := by
  intro cs
  induction cs with
  | nil => intro r0; simp [countOfType]
  | cons c cs ih =>
    intro r0
    obtain ⟨f1, f2, f3, f4, f5, f6, f7, f8, f9⟩ := ih (mergeAddComment m r0 c)
    obtain ⟨g1, g2, g3, g4, g5, g6, g7, g8, g9⟩ := mergeAddComment_spec m r0 c
    rw [List.foldl_cons]
    by_cases hc : (!mapHasLine m c.line || !mapHasText m c.line c.text) = true
    · refine ⟨by rw [f1, g1], by rw [f2, g2], by rw [f3, g3], by rw [f4, g4], by rw [f5, g5],
        ?_, ?_, ?_, ?_⟩
      · rw [f6, g6]
        simp [List.filter_cons, hc]
      · rw [f7, g7]
        by_cases hty : c.type = CommentType.error <;>
          simp [List.filter_cons, hc, hty, countOfType, List.countP_cons] <;>
          push_cast <;> ring
      · rw [f8, g8]
        by_cases hty : c.type = CommentType.warning <;>
          simp [List.filter_cons, hc, hty, countOfType, List.countP_cons] <;>
          push_cast <;> ring
      · rw [f9, g9]
        by_cases hty : c.type = CommentType.info <;>
          simp [List.filter_cons, hc, hty, countOfType, List.countP_cons] <;>
          push_cast <;> ring
    · refine ⟨by rw [f1, g1], by rw [f2, g2], by rw [f3, g3], by rw [f4, g4], by rw [f5, g5],
        ?_, ?_, ?_, ?_⟩
      · rw [f6, g6]
        simp [List.filter_cons, hc]
      · rw [f7, g7]
        simp [List.filter_cons, hc]
      · rw [f8, g8]
        simp [List.filter_cons, hc]
      · rw [f9, g9]
        simp [List.filter_cons, hc]

theorem mergeAnalysisResults_spec (ai : ReviewResult) (st : List CodeComment) :
    (mergeAnalysisResults ai st).metrics = ai.metrics ∧
    (mergeAnalysisResults ai st).improvedCode = ai.improvedCode ∧
    (mergeAnalysisResults ai st).keyImprovements = ai.keyImprovements ∧
    (mergeAnalysisResults ai st).gitlabIntegration = ai.gitlabIntegration ∧
    (mergeAnalysisResults ai st).issues.types = ai.issues.types ∧
    (mergeAnalysisResults ai st).comments = sortComments (ai.comments ++ addedComments ai st) ∧
    (mergeAnalysisResults ai st).issues.critical =
      ai.issues.critical + (countOfType CommentType.error (addedComments ai st) : Int) ∧
    (mergeAnalysisResults ai st).issues.warnings =
      ai.issues.warnings + (countOfType CommentType.warning (addedComments ai st) : Int) ∧
    (mergeAnalysisResults ai st).issues.info =
      ai.issues.info + (countOfType CommentType.info (addedComments ai st) : Int) := by
  obtain ⟨f1, f2, f3, f4, f5, f6, f7, f8, f9⟩ :=
    foldl_mergeAddComment_spec (commentsByLine ai.comments) st ai
  simp only [mergeAnalysisResults, addedComments]
  exact ⟨f1, f2, f3, f4, f5, by rw [f6], f7, f8, f9⟩

theorem sortComments_perm (l : List CodeComment) : (sortComments l).Perm l :=
  List.perm_insertionSort _ l

theorem countOfType_sortComments (t : CommentType) (l : List CodeComment) :
    countOfType t (sortComments l) = countOfType t l :=
  (sortComments_perm l).countP_eq _

theorem countOfType_append (t : CommentType) (l1 l2 : List CodeComment) :
    countOfType t (l1 ++ l2) = countOfType t l1 + countOfType t l2 :=
  List.countP_append _ _ _

theorem countPair_sortComments (li : Int) (tx : String) (l : List CodeComment) :
    countPair li tx (sortComments l) = countPair li tx l :=
  (sortComments_perm l).countP_eq _

theorem countPair_append (li : Int) (tx : String) (l1 l2 : List CodeComment) :
    countPair li tx (l1 ++ l2) = countPair li tx l1 + countPair li tx l2 :=
  List.countP_append _ _ _

theorem callRetry_three_attempts (behavior : String → Nat → ApiOutcome) (r : ReviewResult)
    (h0 : behavior OPENAI_MODEL 0 = ApiOutcome.failure true false)
    (h1 : behavior OPENAI_MODEL 1 = ApiOutcome.failure true false)
    (h2 : behavior OPENAI_MODEL 2 = ApiOutcome.success r) :
    callOpenAIWithRetry behavior OPENAI_MODEL 0 =
      (some r, [(OPENAI_MODEL, 0), (OPENAI_MODEL, 1), (OPENAI_MODEL, 2)]) := by
  have s2 : callOpenAIWithRetry behavior OPENAI_MODEL 2 = (some r, [(OPENAI_MODEL, 2)]) := by
    unfold callOpenAIWithRetry
    rw [h2]
  have s1 : callOpenAIWithRetry behavior OPENAI_MODEL 1 =
      (some r, [(OPENAI_MODEL, 1), (OPENAI_MODEL, 2)]) := by
    unfold callOpenAIWithRetry
    rw [h1]
    dsimp only
    rw [dif_pos ⟨by norm_num [MAX_RETRIES], rfl, rfl⟩]
    norm_num
    rw [s2]
    exact ⟨rfl, rfl⟩
  unfold callOpenAIWithRetry
  rw [h0]
  dsimp only
  rw [dif_pos ⟨by norm_num [MAX_RETRIES], rfl, rfl⟩]
  norm_num
  rw [s1]
  exact ⟨rfl, rfl⟩

theorem count_info_sugg (comments : List CodeComment) :
    (comments.filter fun c =>
        c.type == CommentType.info || c.type == CommentType.suggestion).length =
      countOfType CommentType.info comments + countOfType CommentType.suggestion comments := by
  induction comments with
  | nil => simp [countOfType]
  | cons c cs ih =>
    cases hty : c.type <;>
      simp [countOfType, List.countP_cons, List.filter_cons, hty] at ih ⊢ <;> omega

theorem synth_loop_eq (lines : List String) :
    ∀ (n : Nat) (acc : List CodeComment),
      (lines.foldl synthStep (((n : Nat) : Int) + 1, acc)).2 =
        acc ++ (lines.enumFrom n).filterMap (fun p =>
          if (jsTrim p.2).length > 20 then
            some { line := ((p.1 : Nat) : Int) + 1, text := jsTrim p.2,
                   type := classifyLine (jsTrim p.2) }
          else none) := by
  induction lines with
  | nil => intro n acc; simp
  | cons l ls ih =>
    intro n acc
    have hstep : synthStep (((n : Nat) : Int) + 1, acc) l =
        (((n : Nat) : Int) + 1 + 1,
          acc ++ (if (jsTrim l).length > 20 then
            [{ line := ((n : Nat) : Int) + 1, text := jsTrim l,
               type := classifyLine (jsTrim l) }]
          else [])) := by
      by_cases he : (jsTrim l).isEmpty
      · have hl : jsTrim l = "" := (String.isEmpty_iff _).1 he
        simp [synthStep, he, hl]
      · by_cases hlen : (jsTrim l).length > 20 <;> simp [synthStep, he, hlen]
    rw [List.foldl_cons, hstep]
    have hcast : ((n : Nat) : Int) + 1 + 1 = (((n + 1 : Nat) : Nat) : Int) + 1 := by
      push_cast; ring
    rw [hcast, ih (n + 1), List.enumFrom_cons, List.filterMap_cons]
    by_cases hlen : (jsTrim l).length > 20 <;> simp [hlen]

/-! ## Lemmas for the dynamic layer -/

theorem exceptBind_ok {α β : Type} (a : α) (f : α → Except String β) :
    (Except.ok a >>= f : Except String β) = f a := rfl

theorem jsonLookup_setField_self (fields : List (String × Json)) (k : String) (v : Json) :
    jsonLookup (jsSetField fields k v) k = some v := by
  induction fields with
  | nil => simp [jsSetField, jsonLookup]
  | cons hd tl ih =>
    obtain ⟨k1, v1⟩ := hd
    by_cases h : k1 = k
    · simp [jsSetField, jsonLookup, h]
    · simp [jsSetField, jsonLookup, h, ih]

theorem jsonLookup_setField_ne (fields : List (String × Json)) (k k' : String) (v : Json)
    (h : k' ≠ k) :
    jsonLookup (jsSetField fields k v) k' = jsonLookup fields k' := by
  induction fields with
  | nil => simp [jsSetField, jsonLookup, Ne.symm h]
  | cons hd tl ih =>
    obtain ⟨k1, v1⟩ := hd
    by_cases h1 : k1 = k
    · subst h1
      simp [jsSetField, jsonLookup, Ne.symm h]
    · simp [jsSetField, jsonLookup, h1, ih]

theorem fieldIs_obj_set_self (fs : List (String × Json)) (k : String) (v : Json)
    (p : Json → Bool) :
    fieldIs (Json.obj (jsSetField fs k v)) k p = p v := by
  simp [fieldIs, jsonLookup_setField_self]

theorem fieldIs_obj_set_ne (fs : List (String × Json)) (k k' : String) (v : Json)
    (p : Json → Bool) (h : k' ≠ k) :
    fieldIs (Json.obj (jsSetField fs k v)) k' p = fieldIs (Json.obj fs) k' p := by
  simp [fieldIs, jsonLookup_setField_ne fs k k' v h]

theorem optFieldIs_obj_set_ne (fs : List (String × Json)) (k k' : String) (v : Json)
    (p : Json → Bool) (h : k' ≠ k) :
    optFieldIs (Json.obj (jsSetField fs k v)) k' p = optFieldIs (Json.obj fs) k' p := by
  simp [optFieldIs, jsonLookup_setField_ne fs k k' v h]

theorem commentShape_jsonOfComment (c : CodeComment) :
    commentShape (jsonOfComment c) = true := by
  obtain ⟨line, text, ty, sug, file, gid⟩ := c
  cases ty <;> cases sug <;> cases file <;> cases gid <;>
    simp [jsonOfComment, commentShape, fieldIs, optFieldIs, jsonLookup, commentTypeString,
      isNumJson, isStrJson]

theorem metricScoreShape_enc (m : MetricScore) :
    metricScoreShape (jsonOfMetricScore m) = true := by
  obtain ⟨g, s, ch⟩ := m
  cases ch <;>
    simp [jsonOfMetricScore, metricScoreShape, fieldIs, optFieldIs, jsonLookup,
      isNumJson, isStrJson]

theorem issueTypeShape_enc (t : IssueType) :
    issueTypeShape (jsonOfIssueType t) = true := by
  obtain ⟨n, d, sev⟩ := t
  cases sev <;>
    simp [jsonOfIssueType, issueTypeShape, fieldIs, jsonLookup, severityString,
      isNumJson, isStrJson]

theorem gitlabShape_enc (g : GitlabIntegration) :
    gitlabShape (jsonOfGitlab g) = true := by
  obtain ⟨pid, mid, sha, url, cids⟩ := g
  cases pid <;> cases mid <;> cases sha <;> cases url <;> cases cids <;>
    simp [jsonOfGitlab, gitlabShape, fieldIs, optFieldIs, jsonLookup,
      isNumJson, isStrJson, List.all_map, Function.comp]

theorem shape_jsonOfReviewResult (r : ReviewResult) :
    ReviewResultShape (jsonOfReviewResult r) = true := by
  obtain ⟨mets, comments, improved, keyImps, issues, gitlab⟩ := r
  cases improved <;> cases keyImps <;> cases gitlab <;>
    simp [jsonOfReviewResult, ReviewResultShape, fieldIs, optFieldIs, jsonLookup,
      metricsShape, issuesShape, isNumJson, isStrJson, isStrArrJson,
      metricScoreShape_enc, commentShape_jsonOfComment, issueTypeShape_enc, gitlabShape_enc,
      List.all_map, Function.comp]

theorem shape_isObj {j : Json} (h : ReviewResultShape j = true) :
    ∃ fields, j = Json.obj fields := by
  cases j <;> simp [ReviewResultShape, fieldIs] at h
  exact ⟨_, rfl⟩

theorem commentShape_isObj {j : Json} (h : commentShape j = true) :
    ∃ fields, j = Json.obj fields := by
  cases j <;> simp [commentShape, fieldIs] at h
  exact ⟨_, rfl⟩

theorem foldMapDyn_ok :
    ∀ (aiComments : List Json) (m0 : List (Option Json × List (Option Json))),
      aiComments.all commentShape = true →
      ∃ m, aiComments.foldlM
        (fun m c => do
          let line ← jsGet c "line"
          let text ← jsGet c "text"
          Except.ok (dynMapAdd m line text)) m0 = Except.ok m := by
  intro cs
  induction cs with
  | nil => intro m0 _; exact ⟨m0, rfl⟩
  | cons c cs ih =>
    intro m0 h
    rw [List.all_cons, Bool.and_eq_true] at h
    obtain ⟨hc, hcs⟩ := h
    obtain ⟨fields, rfl⟩ := commentShape_isObj hc
    rw [List.foldlM_cons]
    obtain ⟨m, hm⟩ := ih (dynMapAdd m0 (jsonLookup fields "line") (jsonLookup fields "text")) hcs
    exact ⟨m, by rw [show (do
      let line ← jsGet (Json.obj fields) "line"
      let text ← jsGet (Json.obj fields) "text"
      Except.ok (dynMapAdd m0 line text) : Except String _) =
        Except.ok (dynMapAdd m0 (jsonLookup fields "line") (jsonLookup fields "text")) from rfl,
      exceptBind_ok, hm]⟩

theorem buildCommentsByLineDyn_ok (aiComments : List Json)
    (h : aiComments.all commentShape = true) :
    ∃ m, buildCommentsByLineDyn aiComments = Except.ok m :=
  foldMapDyn_ok aiComments [] h

theorem issuesShape_setNum {ifields : List (String × Json)} (k : String) (n : Int)
    (hk : k = "critical" ∨ k = "warnings" ∨ k = "info")
    (h : issuesShape (Json.obj ifields) = true) :
    issuesShape (Json.obj (jsSetField ifields k (Json.num n))) = true := by
  unfold issuesShape at h ⊢
  simp only [Bool.and_eq_true] at h ⊢
  obtain ⟨⟨⟨h1, h2⟩, h3⟩, h4⟩ := h
  rcases hk with rfl | rfl | rfl
  · exact ⟨⟨⟨by rw [fieldIs_obj_set_self]; rfl,
      by rw [fieldIs_obj_set_ne _ _ _ _ _ (by decide)]; exact h2⟩,
      by rw [fieldIs_obj_set_ne _ _ _ _ _ (by decide)]; exact h3⟩,
      by rw [fieldIs_obj_set_ne _ _ _ _ _ (by decide)]; exact h4⟩
  · exact ⟨⟨⟨by rw [fieldIs_obj_set_ne _ _ _ _ _ (by decide)]; exact h1,
      by rw [fieldIs_obj_set_self]; rfl⟩,
      by rw [fieldIs_obj_set_ne _ _ _ _ _ (by decide)]; exact h3⟩,
      by rw [fieldIs_obj_set_ne _ _ _ _ _ (by decide)]; exact h4⟩
  · exact ⟨⟨⟨by rw [fieldIs_obj_set_ne _ _ _ _ _ (by decide)]; exact h1,
      by rw [fieldIs_obj_set_ne _ _ _ _ _ (by decide)]; exact h2⟩,
      by rw [fieldIs_obj_set_self]; rfl⟩,
      by rw [fieldIs_obj_set_ne _ _ _ _ _ (by decide)]; exact h4⟩

theorem shape_set_issues {fields : List (String × Json)} {issues' : Json}
    (h : ReviewResultShape (Json.obj fields) = true)
    (hi : issuesShape issues' = true) :
    ReviewResultShape (jsSet (Json.obj fields) "issues" issues') = true := by
  unfold ReviewResultShape at h ⊢
  simp only [Bool.and_eq_true] at h ⊢
  obtain ⟨⟨⟨⟨⟨h1, h2⟩, h3⟩, h4⟩, h5⟩, h6⟩ := h
  rw [show jsSet (Json.obj fields) "issues" issues' =
    Json.obj (jsSetField fields "issues" issues') from rfl]
  exact ⟨⟨⟨⟨⟨by rw [fieldIs_obj_set_ne _ _ _ _ _ (by decide)]; exact h1,
    by rw [fieldIs_obj_set_ne _ _ _ _ _ (by decide)]; exact h2⟩,
    by rw [fieldIs_obj_set_self]; exact hi⟩,
    by rw [optFieldIs_obj_set_ne _ _ _ _ _ (by decide)]; exact h4⟩,
    by rw [optFieldIs_obj_set_ne _ _ _ _ _ (by decide)]; exact h5⟩,
    by rw [optFieldIs_obj_set_ne _ _ _ _ _ (by decide)]; exact h6⟩

theorem shape_set_comments {fields : List (String × Json)} {sorted : List Json}
    (h : ReviewResultShape (Json.obj fields) = true)
    (hs : sorted.all commentShape = true) :
    ReviewResultShape (jsSet (Json.obj fields) "comments" (Json.arr sorted)) = true := by
  unfold ReviewResultShape at h ⊢
  simp only [Bool.and_eq_true] at h ⊢
  obtain ⟨⟨⟨⟨⟨h1, h2⟩, h3⟩, h4⟩, h5⟩, h6⟩ := h
  rw [show jsSet (Json.obj fields) "comments" (Json.arr sorted) =
    Json.obj (jsSetField fields "comments" (Json.arr sorted)) from rfl]
  exact ⟨⟨⟨⟨⟨by rw [fieldIs_obj_set_ne _ _ _ _ _ (by decide)]; exact h1,
    by rw [fieldIs_obj_set_self]; exact hs⟩,
    by rw [fieldIs_obj_set_ne _ _ _ _ _ (by decide)]; exact h3⟩,
    by rw [optFieldIs_obj_set_ne _ _ _ _ _ (by decide)]; exact h4⟩,
    by rw [optFieldIs_obj_set_ne _ _ _ _ _ (by decide)]; exact h5⟩,
    by rw [optFieldIs_obj_set_ne _ _ _ _ _ (by decide)]; exact h6⟩

theorem jsIncrIssueField_ok (fields : List (String × Json)) (k : String)
    (hk : k = "critical" ∨ k = "warnings" ∨ k = "info")
    (h : ReviewResultShape (Json.obj fields) = true) :
    ∃ ai', jsIncrIssueField (Json.obj fields) k = Except.ok ai' ∧
      ReviewResultShape ai' = true := by
  have hi : fieldIs (Json.obj fields) "issues" issuesShape = true := by
    unfold ReviewResultShape at h
    simp only [Bool.and_eq_true] at h
    exact h.1.1.1.2
  rw [show fieldIs (Json.obj fields) "issues" issuesShape =
    (match jsonLookup fields "issues" with
     | some v => issuesShape v
     | none => false) from rfl] at hi
  cases hlup : jsonLookup fields "issues" with
  | none => rw [hlup] at hi; exact absurd hi (by simp)
  | some issues =>
    rw [hlup] at hi
    obtain ⟨ifields, rfl⟩ : ∃ ifields, issues = Json.obj ifields := by
      cases issues <;> simp [issuesShape, fieldIs] at hi
      exact ⟨_, rfl⟩
    obtain ⟨n, hn⟩ : ∃ n, jsonLookup ifields k = some (Json.num n) := by
      unfold issuesShape at hi
      simp only [Bool.and_eq_true] at hi
      obtain ⟨⟨⟨h1, h2⟩, h3⟩, _⟩ := hi
      have hfield : fieldIs (Json.obj ifields) k isNumJson = true := by
        rcases hk with rfl | rfl | rfl
        · exact h1
        · exact h2
        · exact h3
      rw [show fieldIs (Json.obj ifields) k isNumJson =
        (match jsonLookup ifields k with
         | some v => isNumJson v
         | none => false) from rfl] at hfield
      cases hl : jsonLookup ifields k with
      | none => rw [hl] at hfield; exact absurd hfield (by simp)
      | some v =>
        rw [hl] at hfield
        cases v <;> simp [isNumJson] at hfield
        exact ⟨_, rfl⟩
    refine ⟨jsSet (Json.obj fields) "issues"
      (Json.obj (jsSetField ifields k (jsIncr (jsonLookup ifields k)))), ?_, ?_⟩
    · rw [show jsIncrIssueField (Json.obj fields) k =
        (Except.ok (jsonLookup fields "issues") >>= fun issuesOpt =>
          match issuesOpt with
          | none => Except.error
              ("TypeError: Cannot read properties of undefined (reading " ++ k ++ ")")
          | some issues =>
            match issues with
            | Json.null => Except.error
                ("TypeError: Cannot read properties of null (reading " ++ k ++ ")")
            | Json.obj ifs =>
              Except.ok (jsSet (Json.obj fields) "issues"
                (Json.obj (jsSetField ifs k (jsIncr (jsonLookup ifs k)))))
            | _ => Except.error ("TypeError: Cannot create property " ++ k)) from rfl,
        exceptBind_ok, hlup]
    · apply shape_set_issues h
      rw [hn]
      exact issuesShape_setNum k (n + 1) hk
        (by unfold ReviewResultShape at h
            simp only [Bool.and_eq_true] at h
            have h2 := h.1.1.1.2
            rw [show fieldIs (Json.obj fields) "issues" issuesShape =
              (match jsonLookup fields "issues" with
               | some v => issuesShape v
               | none => false) from rfl, hlup] at h2
            exact h2)

theorem mergeAddCommentDyn_ok (m : List (Option Json × List (Option Json)))
    (cs0 : List Json) (ai0 : Json) (comment : CodeComment)
    (hcs : cs0.all commentShape = true) (hai : ReviewResultShape ai0 = true) :
    ∃ cs1 ai1, mergeAddCommentDyn m (cs0, ai0) comment = Except.ok (cs1, ai1) ∧
      cs1.all commentShape = true ∧ ReviewResultShape ai1 = true := by
  obtain ⟨fields, rfl⟩ := shape_isObj hai
  unfold mergeAddCommentDyn
  by_cases hdup : (!dynMapHasLine m (some (Json.num comment.line)) ||
      !dynMapHasText m (some (Json.num comment.line)) (some (Json.str comment.text))) = true
  · rw [if_pos hdup]
    have hcs1 : (cs0 ++ [jsonOfComment comment]).all commentShape = true := by
      simp [List.all_append, hcs, commentShape_jsonOfComment]
    by_cases he : comment.type = CommentType.error
    · obtain ⟨ai', hok, hsh⟩ := jsIncrIssueField_ok fields "critical" (Or.inl rfl) hai
      exact ⟨_, ai', by rw [if_pos he]; rw [hok, exceptBind_ok], hcs1, hsh⟩
    · rw [if_neg he]
      by_cases hw : comment.type = CommentType.warning
      · obtain ⟨ai', hok, hsh⟩ := jsIncrIssueField_ok fields "warnings" (Or.inr (Or.inl rfl)) hai
        exact ⟨_, ai', by rw [if_pos hw]; rw [hok, exceptBind_ok], hcs1, hsh⟩
      · rw [if_neg hw]
        by_cases hin : comment.type = CommentType.info
        · obtain ⟨ai', hok, hsh⟩ := jsIncrIssueField_ok fields "info" (Or.inr (Or.inr rfl)) hai
          exact ⟨_, ai', by rw [if_pos hin]; rw [hok, exceptBind_ok], hcs1, hsh⟩
        · rw [if_neg hin]
          exact ⟨_, Json.obj fields, rfl, hcs1, hai⟩
  · rw [if_neg hdup]
    exact ⟨cs0, Json.obj fields, rfl, hcs, hai⟩

theorem foldMergeDyn_ok (m : List (Option Json × List (Option Json))) :
    ∀ (st : List CodeComment) (cs0 : List Json) (ai0 : Json),
      cs0.all commentShape = true → ReviewResultShape ai0 = true →
      ∃ cs1 ai1, st.foldlM (mergeAddCommentDyn m) (cs0, ai0) = Except.ok (cs1, ai1) ∧
        cs1.all commentShape = true ∧ ReviewResultShape ai1 = true := by
  intro st
  induction st with
  | nil => intro cs0 ai0 h1 h2; exact ⟨cs0, ai0, rfl, h1, h2⟩
  | cons c cs ih =>
    intro cs0 ai0 h1 h2
    obtain ⟨cs1, ai1, hok, hc1, ha1⟩ := mergeAddCommentDyn_ok m cs0 ai0 c h1 h2
    obtain ⟨cs2, ai2, hok2, hc2, ha2⟩ := ih cs1 ai1 hc1 ha1
    exact ⟨cs2, ai2, by rw [List.foldlM_cons, hok, exceptBind_ok, hok2], hc2, ha2⟩

theorem dynSortByLine_ok (cs : List Json) (h : cs.all commentShape = true) :
    ∃ out, dynSortByLine cs = Except.ok out ∧ out.all commentShape = true := by
  have hmapM : ∀ (cs : List Json), cs.all commentShape = true →
      ∃ keyed, cs.mapM (fun c => do
          let l ← jsGet c "line"
          Except.ok ((l, c) : Option Json × Json)) = Except.ok keyed ∧
        keyed.map (fun p => p.2) = cs := by
    intro cs
    induction cs with
    | nil => intro _; exact ⟨[], rfl, rfl⟩
    | cons c cs ih =>
      intro h
      rw [List.all_cons, Bool.and_eq_true] at h
      obtain ⟨hc, hcs⟩ := h
      obtain ⟨fields, rfl⟩ := commentShape_isObj hc
      obtain ⟨keyed, hk, hmap⟩ := ih hcs
      refine ⟨(jsonLookup fields "line", Json.obj fields) :: keyed, ?_, by simp [hmap]⟩
      rw [List.mapM_cons]
      rw [show (do
        let l ← jsGet (Json.obj fields) "line"
        Except.ok ((l, Json.obj fields) : Option Json × Json) : Except String _) =
          Except.ok ((jsonLookup fields "line", Json.obj fields) : Option Json × Json) from rfl,
        exceptBind_ok, hk]
      rfl
  obtain ⟨keyed, hk, hmap⟩ := hmapM cs h
  refine ⟨(List.insertionSort (fun a b => dynLineLe a.1 b.1) keyed).map (fun p => p.2), ?_, ?_⟩
  · unfold dynSortByLine
    rw [hk, exceptBind_ok]
  · have hperm : ((List.insertionSort (fun a b => dynLineLe a.1 b.1) keyed).map
        (fun p => p.2)).Perm cs := by
      rw [← hmap]
      exact (List.perm_insertionSort _ keyed).map _
    exact List.all_eq_true.2
      (fun x hx => List.all_eq_true.1 h x (hperm.subset hx))

theorem mergeDyn_ok (ai : Json) (st : List CodeComment)
    (h : ReviewResultShape ai = true) :
    ∃ r, mergeAnalysisResultsDyn ai st = Except.ok r ∧ ReviewResultShape r = true := by
  obtain ⟨fields, rfl⟩ := shape_isObj h
  have hc : fieldIs (Json.obj fields) "comments" (fun v =>
      match v with
      | Json.arr es => es.all commentShape
      | _ => false) = true := by
    unfold ReviewResultShape at h
    simp only [Bool.and_eq_true] at h
    exact h.1.1.1.1.2
  rw [show fieldIs (Json.obj fields) "comments" (fun v =>
      match v with
      | Json.arr es => es.all commentShape
      | _ => false) =
    (match jsonLookup fields "comments" with
     | some v =>
       match v with
       | Json.arr es => es.all commentShape
       | _ => false
     | none => false) from rfl] at hc
  obtain ⟨aiComments, hlup, hall⟩ : ∃ es,
      jsonLookup fields "comments" = some (Json.arr es) ∧ es.all commentShape = true := by
    cases hl : jsonLookup fields "comments" with
    | none => rw [hl] at hc; exact absurd hc (by simp)
    | some v =>
      rw [hl] at hc
      cases v with
      | arr es => exact ⟨es, rfl, hc⟩
      | null => simp at hc
      | bool b => simp at hc
      | num n => simp at hc
      | str s => simp at hc
      | obj fs => simp at hc
      | nan => simp at hc
  obtain ⟨m, hm⟩ := buildCommentsByLineDyn_ok aiComments hall
  obtain ⟨cs1, ai1, hfold, hcs1, hai1⟩ := foldMergeDyn_ok m st aiComments (Json.obj fields) hall h
  obtain ⟨sorted, hsort, hsorted⟩ := dynSortByLine_ok cs1 hcs1
  obtain ⟨f1, rfl⟩ := shape_isObj hai1
  refine ⟨jsSet (Json.obj f1) "comments" (Json.arr sorted), ?_, shape_set_comments hai1 hsorted⟩
  unfold mergeAnalysisResultsDyn
  rw [show jsGet (Json.obj fields) "comments" = Except.ok (jsonLookup fields "comments") from rfl,
    exceptBind_ok, hlup]
  rw [show ((match (some (Json.arr aiComments) : Option Json) with
    | some (Json.arr aiComments) => do
      let commentsByLineMap ← buildCommentsByLineDyn aiComments
      let st2 ← st.foldlM (mergeAddCommentDyn commentsByLineMap) (aiComments, Json.obj fields)
      let sorted ← dynSortByLine st2.1
      Except.ok (jsSet st2.2 "comments" (Json.arr sorted))
    | _ => Except.error "TypeError: aiResult.comments.forEach is not a function") :
      Except String Json) = (do
      let commentsByLineMap ← buildCommentsByLineDyn aiComments
      let st2 ← st.foldlM (mergeAddCommentDyn commentsByLineMap) (aiComments, Json.obj fields)
      let sorted ← dynSortByLine st2.1
      Except.ok (jsSet st2.2 "comments" (Json.arr sorted))) from rfl]
  rw [hm, exceptBind_ok, hfold, exceptBind_ok, hsort, exceptBind_ok]

/-! # Claims -/

/-- C1 (counterexample): the review pipeline does not satisfy
`issues.critical + issues.warnings + issues.info = count(error) +
count(warning) + count(info or suggestion)` for every provider outcome:
with the provider returning a well-formed result with no comments and
zero counters, the `var` suggestion added by the merge is appended to
the comments but increments no counter. -/
theorem claim1_counterexample :
    ¬ issuesInvariant (reviewPipeline subVar (some aiR0)) := by decide

/-- C1 (amended): the final result of the review pipeline satisfies the
counting invariant provided the AI-side result itself satisfies it and
none of the static findings actually added by the merge has type
`suggestion` (the merge trusts the provider's counters and does not
count appended suggestion-type findings). -/
theorem claim1_amended (submission : CodeSubmission) (providerOutcome : Option ReviewResult)
    (h1 : issuesInvariant (analyzeCode submission providerOutcome))
    (h2 : ∀ c ∈ addedComments (analyzeCode submission providerOutcome)
        (performBasicAnalysis submission), c.type ≠ CommentType.suggestion) :
    issuesInvariant (reviewPipeline submission providerOutcome) := by
  obtain ⟨-, -, -, -, -, e6, e7, e8, e9⟩ :=
    mergeAnalysisResults_spec (analyzeCode submission providerOutcome)
      (performBasicAnalysis submission)
  show issuesInvariant
    (mergeAnalysisResults (analyzeCode submission providerOutcome)
      (performBasicAnalysis submission))
  unfold issuesInvariant at h1 ⊢
  rw [e6, e7, e8, e9]
  simp only [countOfType_sortComments, countOfType_append]
  have hs : countOfType CommentType.suggestion
      (addedComments (analyzeCode submission providerOutcome)
        (performBasicAnalysis submission)) = 0 := by
    rw [countOfType]
    apply List.countP_eq_zero.2
    intro c hc
    simpa using h2 c hc
  omega

/-- C1 (witness): a concrete submission and provider outcome satisfying
the hypotheses of the amended claim. -/
theorem claim1_witness :
    issuesInvariant (analyzeCode subEq (some aiR0)) ∧
    (∀ c ∈ addedComments (analyzeCode subEq (some aiR0)) (performBasicAnalysis subEq),
      c.type ≠ CommentType.suggestion) ∧
    issuesInvariant (reviewPipeline subEq (some aiR0)) :=
  ⟨by decide, by decide, claim1_amended subEq (some aiR0) (by decide) (by decide)⟩

/-- C2 (code bug): merging a suggestion-type static finding that no AI
comment duplicates appends it to the comments but increments no issues
bucket, although every other counting site of the code (the fallback
generators and the synthetic-result builder) counts suggestion-type
comments in the `info` bucket, and the merge's own comment says it
updates the count based on the comment type. Evaluated at the failing
input: AI result with no comments and zero counters, one suggestion
finding. -/
theorem claim2_code_bug :
    (mergeAnalysisResults aiR0 [sugFinding]).comments = [sugFinding] ∧
    (mergeAnalysisResults aiR0 [sugFinding]).issues.critical = 0 ∧
    (mergeAnalysisResults aiR0 [sugFinding]).issues.warnings = 0 ∧
    (mergeAnalysisResults aiR0 [sugFinding]).issues.info = 0 := by decide

/-- C3 (counterexample): for the §8 item 8 scenario the final overall
grade/score is `"B+"`/85 (two warnings, zero errors), not `"B-"`/80 as
the claim states. -/
theorem claim3_counterexample :
    (reviewPipeline sub3 none).metrics.overall.grade = "B+" ∧
    (reviewPipeline sub3 none).metrics.overall.score = 85 ∧
    ¬((reviewPipeline sub3 none).metrics.overall.grade = "B-" ∧
      (reviewPipeline sub3 none).metrics.overall.score = 80) := by decide

/-- C3 (amended): the scenario's static findings are exactly the `var`
suggestion on line 1 (proposing `const x = 1;`), the console.log warning
on line 2 and the loose-equality warning on line 2 (proposing `===`),
and the final overall grade/score is `"B+"`/85. -/
theorem claim3_amended :
    performBasicAnalysis sub3 =
      [{ line := 1, text := "Consider using 'let' or 'const' instead of 'var'",
         type := CommentType.suggestion, suggestion := some "const x = 1;" },
       { line := 2, text := "Consider removing debug console.log statements in production code",
         type := CommentType.warning },
       { line := 2,
         text := "Using loose equality (==) may lead to unexpected behavior. Consider using strict equality (===)",
         type := CommentType.warning,
         suggestion := some "if (x === 1) \x7b console.log(x); \x7d" }] ∧
    (reviewPipeline sub3 none).metrics.overall = { grade := "B+", score := 85 } ∧
    (reviewPipeline sub3 none).comments = performBasicAnalysis sub3 := by decide

/-- C7: a submission whose code consists only of whitespace (including
the empty string) makes the pattern analyzer return exactly the single
error comment `\x7bline: 1, text: "Code is empty", type: "error"\x7d`,
whatever the language. -/
theorem claim7_empty_code (submission : CodeSubmission)
    (h : submission.code.toList.all jsIsWhitespace = true) :
    performBasicAnalysis submission =
      [{ line := 1, text := "Code is empty", type := CommentType.error }] := by
  have h1 : submission.code.toList.dropWhile jsIsWhitespace = [] :=
    List.dropWhile_eq_nil_iff.2 (fun x hx => List.all_eq_true.1 h x hx)
  have htrim : (jsTrim submission.code).isEmpty = true := by
    unfold jsTrim
    rw [h1]
    rfl
  unfold performBasicAnalysis
  rw [htrim]
  rfl

/-- C7 (witness): the whitespace submission `" \n\t "`. -/
theorem claim7_witness :
    subWS.code.toList.all jsIsWhitespace = true ∧
    performBasicAnalysis subWS =
      [{ line := 1, text := "Code is empty", type := CommentType.error }] :=
  ⟨by decide, claim7_empty_code subWS (by decide)⟩

/-- C8 (counterexample): when the AI result itself contains the comment
`(5, "X")` twice, the merged result contains it twice, not exactly once,
although the AI result contains a comment with that line and text and a
static finding duplicates it. -/
theorem claim8_counterexample :
    (∃ c ∈ aiDup.comments, c.line = 5 ∧ c.text = "X") ∧
    countPair 5 "X" (mergeAnalysisResults aiDup [infoX5]).comments ≠ 1 := by decide

/-- C8 (amended): when the AI result contains exactly one comment with
line `L` and text `T`, the merged result contains exactly one comment
with that line and text whatever static findings are merged; and a
static finding is appended only if no AI comment on the same line has
byte-identical text. -/
theorem claim8_amended (ai : ReviewResult) (st : List CodeComment) (L : Int) (T : String)
    (h1 : countPair L T ai.comments = 1) :
    countPair L T (mergeAnalysisResults ai st).comments = 1 ∧
    ∀ c ∈ addedComments ai st,
      ¬∃ a ∈ ai.comments, a.line = c.line ∧ a.text = c.text := by
  constructor
  · obtain ⟨-, -, -, -, -, e6, -, -, -⟩ := mergeAnalysisResults_spec ai st
    rw [e6, countPair_sortComments, countPair_append, h1]
    have hz : countPair L T (addedComments ai st) = 0 := by
      rw [addedComments_eq, countPair]
      apply List.countP_eq_zero.2
      intro c hc hpair
      simp only [Bool.and_eq_true, beq_iff_eq] at hpair
      have hcontra := (List.mem_filter.1 hc).2
      rw [Bool.not_eq_true', List.any_eq_false] at hcontra
      have hpos : 0 < List.countP (fun x => x.line == L && x.text == T) ai.comments := by
        have hcp := h1
        rw [countPair] at hcp
        omega
      obtain ⟨a, ha, hp⟩ := List.countP_pos_iff.1 hpos
      simp only [Bool.and_eq_true, beq_iff_eq] at hp
      have hAB := hcontra a ha
      simp [hp.1.trans hpair.1.symm, hp.2.trans hpair.2.symm] at hAB
    omega
  · intro c hc hex
    obtain ⟨a, ha, hline, htext⟩ := hex
    rw [addedComments_eq] at hc
    have hcontra := (List.mem_filter.1 hc).2
    rw [Bool.not_eq_true', List.any_eq_false] at hcontra
    have hAB := hcontra a ha
    simp [hline, htext] at hAB

/-- C8 (witness): AI result containing `(5, "X")` exactly once, merged
with a static finding `(5, "X")`. -/
theorem claim8_witness :
    countPair 5 "X" aiOne.comments = 1 ∧
    countPair 5 "X" (mergeAnalysisResults aiOne [infoX5]).comments = 1 ∧
    (∀ c ∈ addedComments aiOne [infoX5],
      ¬∃ a ∈ aiOne.comments, a.line = c.line ∧ a.text = c.text) := by
  have h := claim8_amended aiOne [infoX5] 5 "X" (by decide)
  exact ⟨by decide, h.1, h.2⟩

/-- C10: the merge changes only the comments list (appending the
non-duplicate static findings and sorting by line) and the
`critical`/`warnings`/`info` counters; the metrics, improvedCode,
keyImprovements, issues.types and gitlabIntegration of the returned
result are those of the input AI result. -/
theorem claim10_frame (ai : ReviewResult) (st : List CodeComment) :
    (mergeAnalysisResults ai st).metrics = ai.metrics ∧
    (mergeAnalysisResults ai st).improvedCode = ai.improvedCode ∧
    (mergeAnalysisResults ai st).keyImprovements = ai.keyImprovements ∧
    (mergeAnalysisResults ai st).gitlabIntegration = ai.gitlabIntegration ∧
    (mergeAnalysisResults ai st).issues.types = ai.issues.types ∧
    (mergeAnalysisResults ai st).comments = sortComments (ai.comments ++ addedComments ai st) ∧
    (mergeAnalysisResults ai st).issues.critical =
      ai.issues.critical + (countOfType CommentType.error (addedComments ai st) : Int) ∧
    (mergeAnalysisResults ai st).issues.warnings =
      ai.issues.warnings + (countOfType CommentType.warning (addedComments ai st) : Int) ∧
    (mergeAnalysisResults ai st).issues.info =
      ai.issues.info + (countOfType CommentType.info (addedComments ai st) : Int) :=
  mergeAnalysisResults_spec ai st

/-- C4 (counterexample): with the retry budget `MAX_RETRIES = 2` and a
behavior that rate-limits the first two attempts on the primary model
and would succeed on the third, the client DOES make a third attempt on
the primary model (retry counters 0, 1, 2), returns that success, and
never calls the secondary model — it does not fall back. -/
theorem claim4_counterexample :
    (callOpenAIWithRetry b4 OPENAI_MODEL 0).2 =
      [(OPENAI_MODEL, 0), (OPENAI_MODEL, 1), (OPENAI_MODEL, 2)] ∧
    (OPENAI_MODEL, 2) ∈ (callOpenAIWithRetry b4 OPENAI_MODEL 0).2 ∧
    (∀ p ∈ (callOpenAIWithRetry b4 OPENAI_MODEL 0).2, p.1 ≠ FALLBACK_MODEL) ∧
    (callOpenAIWithRetry b4 OPENAI_MODEL 0).1 = some aiR0 := by
  have h := callRetry_three_attempts b4 aiR0 (by decide) (by decide) (by decide)
  rw [h]
  refine ⟨rfl, by decide, by decide, rfl⟩

/-- C4 (amended): the retry budget of 2 counts retries after the initial
attempt, so on rate limits at attempts 1 and 2 the client makes a third
attempt on the primary model (retry counter 2); if it succeeds the
client returns that result and never falls back to the secondary
model. -/
theorem claim4_amended (behavior : String → Nat → ApiOutcome) (r : ReviewResult)
    (h0 : behavior OPENAI_MODEL 0 = ApiOutcome.failure true false)
    (h1 : behavior OPENAI_MODEL 1 = ApiOutcome.failure true false)
    (h2 : behavior OPENAI_MODEL 2 = ApiOutcome.success r) :
    callOpenAIWithRetry behavior OPENAI_MODEL 0 =
      (some r, [(OPENAI_MODEL, 0), (OPENAI_MODEL, 1), (OPENAI_MODEL, 2)]) :=
  callRetry_three_attempts behavior r h0 h1 h2

/-- C4 (witness): the concrete behavior `b4` satisfies the hypotheses of
the amended claim. -/
theorem claim4_witness :
    b4 OPENAI_MODEL 0 = ApiOutcome.failure true false ∧
    b4 OPENAI_MODEL 1 = ApiOutcome.failure true false ∧
    b4 OPENAI_MODEL 2 = ApiOutcome.success aiR0 ∧
    callOpenAIWithRetry b4 OPENAI_MODEL 0 =
      (some aiR0, [(OPENAI_MODEL, 0), (OPENAI_MODEL, 1), (OPENAI_MODEL, 2)]) :=
  ⟨by decide, by decide, by decide,
    claim4_amended b4 aiR0 (by decide) (by decide) (by decide)⟩

/-- C5: for every comment list and language, the fallback result's
overall grade/score pair is picked by the spec's thresholds over the
error/warning counts and the total count, is one of the five fixed
pairs, and the performance and security metrics are fixed at
`("C+", 75)` and `("C", 70)`. -/
theorem claim5_fallback_grades (comments : List CodeComment) (language : String) :
    ((generateFallbackResult comments language).metrics.overall.grade,
        (generateFallbackResult comments language).metrics.overall.score) =
      specFallbackOverall (countOfType CommentType.error comments)
        (countOfType CommentType.warning comments)
        (countOfType CommentType.error comments + countOfType CommentType.warning comments +
          (countOfType CommentType.info comments + countOfType CommentType.suggestion comments)) ∧
    ((generateFallbackResult comments language).metrics.overall.grade,
        (generateFallbackResult comments language).metrics.overall.score) ∈
      [("A-", (90 : Int)), ("B+", 85), ("B-", 80), ("D+", 65), ("C", 70)] ∧
    (generateFallbackResult comments language).metrics.performance =
      { grade := "C+", score := 75 } ∧
    (generateFallbackResult comments language).metrics.security =
      { grade := "C", score := 70 } := by
  have hE : (comments.filter fun c => c.type == CommentType.error).length =
      countOfType CommentType.error comments := (List.countP_eq_length_filter _ _).symm
  have hW : (comments.filter fun c => c.type == CommentType.warning).length =
      countOfType CommentType.warning comments := (List.countP_eq_length_filter _ _).symm
  refine ⟨?_, ?_, rfl, rfl⟩
  · simp only [generateFallbackResult, specFallbackOverall, hE, hW, count_info_sugg,
      Bool.and_eq_true, beq_iff_eq, decide_eq_true_eq]
  · simp only [generateFallbackResult]
    split_ifs <;> simp

/-- C9 (counterexample): a 119-character, token-free response whose 8
lines all have at most 20 characters yields one placeholder comment,
not one comment per line. -/
theorem claim9_counterexample :
    t9.length > 100 ∧ containsCodeTokens t9 = false ∧
    (jsSplitNewline t9).length = 8 ∧
    (createSyntheticResultFromText t9 "test-model").comments.length = 1 ∧
    (createSyntheticResultFromText t9 "test-model").comments.length ≠
      (jsSplitNewline t9).length := by decide

/-- C9 (amended): for a token-free response the synthetic result has one
comment per line whose trimmed text is longer than 20 characters (lines
numbered by 1-based position, text the trimmed line, type decided by the
ordered keyword matching), with a single placeholder info comment when
no line qualifies, and no improvedCode; for a response containing a code
token the entire text becomes improvedCode and the comments are a single
explanatory info comment. -/
theorem claim9_amended (text modelName : String) :
    (containsCodeTokens text = false →
      (createSyntheticResultFromText text modelName).comments =
        (let want := (jsSplitNewline text).enum.filterMap (fun p =>
            if (jsTrim p.2).length > 20 then
              some { line := ((p.1 : Nat) : Int) + 1, text := jsTrim p.2,
                     type := classifyLine (jsTrim p.2) }
            else none)
         if want.isEmpty then
           [{ line := 1,
              text := "The analysis model provided a non-standard response. Basic analysis has been provided instead.",
              type := CommentType.info }]
         else want) ∧
      (createSyntheticResultFromText text modelName).improvedCode = none) ∧
    (containsCodeTokens text = true →
      (createSyntheticResultFromText text modelName).improvedCode = some text ∧
      (createSyntheticResultFromText text modelName).comments =
        [{ line := 1,
           text := "The model provided an improved version of your code instead of a detailed analysis.",
           type := CommentType.info }]) := by
  constructor
  · intro hf
    have hloop : ((jsSplitNewline text).foldl synthStep (1, [])).2 =
        (jsSplitNewline text).enum.filterMap (fun p =>
          if (jsTrim p.2).length > 20 then
            some { line := ((p.1 : Nat) : Int) + 1, text := jsTrim p.2,
                   type := classifyLine (jsTrim p.2) }
          else none) := by
      have h := synth_loop_eq (jsSplitNewline text) 0 []
      simpa [List.enum] using h
    have hite : ∀ (w d : List CodeComment),
        (if w.length > 0 then w else d) = if w.isEmpty then d else w := by
      intro w d
      cases w <;> simp
    refine ⟨?_, by simp [createSyntheticResultFromText, hf]; rfl⟩
    simp only [createSyntheticResultFromText, hf, Bool.false_eq_true, if_false, hloop, hite]
  · intro ht
    have hne : text ≠ "" := by
      intro he
      rw [he] at ht
      exact absurd ht (by decide)
    have hie : text.isEmpty = false := by
      rw [Bool.eq_false_iff]
      intro hh
      exact hne ((String.isEmpty_iff _).1 hh)
    constructor
    · simp [createSyntheticResultFromText, ht, hie]
    · simp [createSyntheticResultFromText, ht]

/-- C9 (witness): a one-line token-free response whose trimmed line is
longer than 20 characters and contains the keyword `warning`. -/
theorem claim9_witness :
    containsCodeTokens t9w = false ∧
    (createSyntheticResultFromText t9w "m").comments =
      [{ line := 1, text := t9w, type := CommentType.warning }] ∧
    (createSyntheticResultFromText t9w "m").improvedCode = none := by
  have h := (claim9_amended t9w "m").1 (by decide)
  refine ⟨by decide, ?_, h.2⟩
  rw [h.1]
  decide


/-- C6 (counterexample): the pipeline is not exception-free for every
syntactically valid JSON provider response: with the provider returning
the valid JSON `\x7b\x7d` (an empty object, truthy, returned as-is by
`analyzeCode`), the merge throws a `TypeError` on
`aiResult.comments.forEach`. -/
theorem claim6_counterexample :
    reviewPipelineDyn subVar (some (Json.obj [])) =
      Except.error "TypeError: aiResult.comments.forEach is not a function" := rfl

/-- C6 (amended): the pipeline never throws and returns a structurally
well-formed ReviewResult provided every parsed provider response is
itself shaped as a ReviewResult (the code casts `JSON.parse` output
without validation, so an ill-shaped but valid JSON response makes the
merge throw). Provider failures (`none`) are always safe: the fallback
result is well-formed. -/
theorem claim6_amended (submission : CodeSubmission) (providerOutcome : Option Json)
    (h : ∀ j ∈ providerOutcome, ReviewResultShape j = true) :
    ∃ r, reviewPipelineDyn submission providerOutcome = Except.ok r ∧
      ReviewResultShape r = true := by
  have hai : ReviewResultShape (analyzeCodeDyn submission providerOutcome) = true := by
    cases providerOutcome with
    | none => exact shape_jsonOfReviewResult _
    | some j =>
      have hj := h j rfl
      by_cases ht : jsTruthy j
      · simpa [analyzeCodeDyn, ht] using hj
      · simp [analyzeCodeDyn, ht, shape_jsonOfReviewResult]
  exact mergeDyn_ok _ _ hai

/-- C6 (witness): a concrete well-shaped provider response flows through
the pipeline without an exception and yields a well-formed result. -/
theorem claim6_witness :
    (∀ j ∈ (some (jsonOfReviewResult aiR0) : Option Json), ReviewResultShape j = true) ∧
    ∃ r, reviewPipelineDyn subVar (some (jsonOfReviewResult aiR0)) = Except.ok r ∧
      ReviewResultShape r = true := by
  have hmem : ∀ j ∈ (some (jsonOfReviewResult aiR0) : Option Json),
      ReviewResultShape j = true := by
    intro j hj
    rw [Option.mem_def, Option.some_inj] at hj
    rw [← hj]
    exact shape_jsonOfReviewResult aiR0
  exact ⟨hmem, claim6_amended subVar (some (jsonOfReviewResult aiR0)) hmem⟩

end CodeReviewer
